import Mathlib

/-!
Shallow embedding of the Tetromino game engine (src/game.py) and the parts of
the tree-search agent (src/eval.py) needed to check the specification claims.

Python conventions modelled explicitly:
- list indexing with a possibly negative index wraps (l[-1] is the last
  element); an out-of-range access, which raises IndexError in Python, is
  modelled by a default value (the surrounding engine code never reaches it
  on states satisfying the representation invariants);
- board cells and pieces are strings ("", "g", "i", "o", "t", "j", "l",
  "s", "z");
- randint(0, 9) in accept_pending is modelled by an explicit stream of
  column choices (the rng field) threaded through the state.
-/

namespace Tetromino

/-- Python index normalization: a negative index counts from the end of a
list of the given length. -/
def pyIdx (len : Nat) (i : Int) : Int :=
  if i < 0 then (len : Int) + i else i

/-- Python-style list read: negative index counts from the end; out of range
gives the default. -/
def pyNth (l : List α) (i : Int) (d : α) : α :=
  if 0 ≤ pyIdx l.length i ∧ pyIdx l.length i < (l.length : Int) then
    l.getD (pyIdx l.length i).toNat d
  else d

/-- Python-style list write: negative index counts from the end; out of range
is a no-op (Python would raise). -/
def pySet (l : List α) (i : Int) (v : α) : List α :=
  if 0 ≤ pyIdx l.length i ∧ pyIdx l.length i < (l.length : Int) then
    l.set (pyIdx l.length i).toNat v
  else l

/-- Python-style list.pop(i): remove the element at (possibly negative) index
i; out of range is a no-op (Python would raise). -/
def pyPop (l : List α) (i : Int) : List α :=
  if 0 ≤ pyIdx l.length i ∧ pyIdx l.length i < (l.length : Int) then
    l.eraseIdx (pyIdx l.length i).toNat
  else l

/-- COMBO_TABLE from game.py. -/
def COMBO_TABLE : List Nat := [0, 0, 1, 1, 1, 2, 2, 3, 3, 4, 4, 4, 5]

/-- ATTACK_TABLE from game.py. -/
def ATTACK_TABLE : List Nat := [0, 1, 2, 4, 0, 2, 4, 6, 10]

/-- B2B_BONUS from game.py. -/
def B2B_BONUS : Nat := 1

/-- get_filled from game.py: the occupied cells (row, column) of a piece at a
given anchor position (y, x) and orientation, or none when the placement is
invalid. -/
def get_filled (piece : String) (position : Int × Int) (orientation : Nat) :
    Option (List (Int × Int)) :=
  let y := position.1
  let x := position.2
  if (piece ≠ "o" ∧ piece ≠ "i") ∧
      ((orientation = 0 ∧ (y ≤ -1 ∨ x ≤ 0 ∨ x ≥ 9)) ∨
       (orientation = 1 ∧ (y ≤ 0 ∨ x ≤ -1 ∨ x ≥ 9)) ∨
       (orientation = 2 ∧ (y ≤ 0 ∨ x ≤ 0 ∨ x ≥ 9)) ∨
       (orientation = 3 ∧ (y ≤ 0 ∨ x ≤ 0 ∨ x ≥ 10))) then none
  else if piece = "l" then
    if orientation = 0 then
      some [(y, x - 1), (y, x), (y, x + 1), (y + 1, x + 1)]
    else if orientation = 1 then
      some [(y + 1, x), (y, x), (y - 1, x), (y - 1, x + 1)]
    else if orientation = 2 then
      some [(y - 1, x - 1), (y, x - 1), (y, x), (y, x + 1)]
    else if orientation = 3 then
      some [(y + 1, x - 1), (y + 1, x), (y, x), (y - 1, x)]
    else none
  else if piece = "j" then
    if orientation = 0 then
      some [(y, x - 1), (y, x), (y, x + 1), (y + 1, x - 1)]
    else if orientation = 1 then
      some [(y + 1, x), (y, x), (y - 1, x), (y + 1, x + 1)]
    else if orientation = 2 then
      some [(y - 1, x + 1), (y, x - 1), (y, x), (y, x + 1)]
    else if orientation = 3 then
      some [(y - 1, x - 1), (y + 1, x), (y, x), (y - 1, x)]
    else none
  else if piece = "t" then
    if orientation = 0 then
      some [(y, x - 1), (y, x), (y, x + 1), (y + 1, x)]
    else if orientation = 1 then
      some [(y + 1, x), (y, x), (y - 1, x), (y, x + 1)]
    else if orientation = 2 then
      some [(y, x - 1), (y, x), (y, x + 1), (y - 1, x)]
    else if orientation = 3 then
      some [(y - 1, x), (y, x), (y + 1, x), (y, x - 1)]
    else none
  else if piece = "s" then
    if orientation = 0 then
      some [(y, x - 1), (y, x), (y + 1, x), (y + 1, x + 1)]
    else if orientation = 1 then
      some [(y + 1, x), (y, x + 1), (y, x), (y - 1, x + 1)]
    else if orientation = 2 then
      some [(y, x + 1), (y, x), (y - 1, x), (y - 1, x - 1)]
    else if orientation = 3 then
      some [(y + 1, x - 1), (y, x - 1), (y, x), (y - 1, x)]
    else none
  else if piece = "z" then
    if orientation = 0 then
      some [(y + 1, x - 1), (y + 1, x), (y, x), (y, x + 1)]
    else if orientation = 1 then
      some [(y + 1, x + 1), (y, x + 1), (y, x), (y - 1, x)]
    else if orientation = 2 then
      some [(y, x - 1), (y - 1, x), (y, x), (y - 1, x + 1)]
    else if orientation = 3 then
      some [(y + 1, x), (y, x - 1), (y, x), (y - 1, x - 1)]
    else none
  else if piece = "o" then
    if x ≥ 9 ∨ x ≤ -1 then none
    else if y ≤ -1 then none
    else some [(y, x + 1), (y + 1, x), (y, x), (y + 1, x + 1)]
  else if piece = "i" then
    if orientation = 0 ∧ (x ≤ 0 ∨ x ≥ 8 ∨ y ≤ -1) then none
    else if orientation = 2 ∧ (x ≤ 1 ∨ x ≥ 9 ∨ y ≤ -1) then none
    else if orientation = 1 ∧ (x ≤ -1 ∨ x ≥ 10 ∨ y ≤ 1) then none
    else if orientation = 3 ∧ (x ≤ -1 ∨ x ≥ 10 ∨ y ≤ 0) then none
    else if orientation = 0 then
      some [(y, x - 1), (y, x), (y, x + 1), (y, x + 2)]
    else if orientation = 1 then
      some [(y + 1, x), (y, x), (y - 1, x), (y - 2, x)]
    else if orientation = 2 then
      some [(y, x - 2), (y, x - 1), (y, x), (y, x + 1)]
    else if orientation = 3 then
      some [(y + 2, x), (y + 1, x), (y, x), (y - 1, x)]
    else none
  else none

/-- find_well from eval.py: starts with well = 0 and deepest = surface[0],
then for each later index updates well whenever deepest >= surface[i]
(deepest itself is never updated by the loop). -/
def find_well (surface : List Int) : Nat × Int :=
  let deepest := surface.headD 0
  let well := ((List.range surface.length).drop 1).foldl
    (fun well i => if deepest ≥ surface.getD i 0 then i else well) 0
  (well, deepest)

/-- One iteration of the pruning loop in GameTree.generate_subtrees
(eval.py): if the new raw score beats the minimum of the currently kept
scores, replace the first-listed minimum with the new candidate. -/
def pruneStep (scores : List Int) (st : List Nat × List Int) (k : Nat) :
    List Nat × List Int :=
  match st.2.min? with
  | none => st
  | some m =>
    if scores.getD k 0 > m then
      let i := st.2.indexOf m
      (st.1.eraseIdx i ++ [k], st.2.eraseIdx i ++ [scores.getD k 0])
    else st

/-- The pruning step of GameTree.generate_subtrees (eval.py lines 157-168):
keeps the indices of the retained children, given the children's raw scores
in enumeration order and the beam width best_n. -/
def pruneSubtrees (scores : List Int) (bestN : Nat) : List Nat :=
  let n := min bestN scores.length
  let init : List Nat × List Int := (List.range n, scores.take n)
  ((List.range' n (scores.length - n)).foldl (pruneStep scores) init).1

/-- One-step-at-a-time unrolling of the garbage-cancelling while loop of
lock_piece (game.py lines 305-310): while attack is nonzero and pending
garbage remains, pop the oldest entry if it is at most the attack (reducing
the attack), otherwise subtract the attack from the oldest entry (the attack
itself is left unchanged by this branch). The fuel argument only bounds the
iteration count so the recursion is structural; every non-final iteration
strictly decreases pending.sum + pending.length, so fuel of that size is
never exhausted. -/
def cancelLoop : Nat → Nat → List Nat → Nat × List Nat
  | 0, attack, pending => (attack, pending)
  | Nat.succ fuel, attack, pending =>
    match pending with
    | [] => (attack, [])
    | p :: rest =>
      if attack = 0 then (attack, p :: rest)
      else if p ≤ attack then cancelLoop fuel (attack - p) rest
      else cancelLoop fuel attack ((p - attack) :: rest)

/-- The garbage-cancelling while loop of lock_piece: returns the remaining
attack and the remaining pending queue. -/
def cancelGarbage (attack : Nat) (pending : List Nat) : Nat × List Nat :=
  cancelLoop (pending.sum + pending.length) attack pending

/-- The board: 40 rows (bottom to top) of 10 cells each; a cell is "",
"g", or a piece letter. -/
abbrev Board := List (List String)

/-- Read a board cell at (row, column), Python indexing semantics. -/
def boardGet (b : Board) (p : Int × Int) : String :=
  pyNth (pyNth b p.1 []) p.2 ""

/-- Write a board cell at (row, column), Python indexing semantics. -/
def boardSet (b : Board) (p : Int × Int) (v : String) : Board :=
  pySet b p.1 (pySet (pyNth b p.1 []) p.2 v)

/-- Write a list of cells to the same value (the for loops over filled cell
lists in game.py). -/
def setCells (b : Board) (cells : List (Int × Int)) (v : String) : Board :=
  cells.foldl (fun b p => boardSet b p v) b

/-- The state of TetrominoGame (game.py). randint calls in accept_pending
consume the head of the rng stream. -/
structure GameState where
  board : Board
  queue : List String
  queue_position : Int
  current_combo : Int
  back_to_back : Bool
  piece_position : Int × Int
  piece_orientation : Nat
  hold : Bool
  held : String
  prev_held : String
  held_index : Int
  sent_garbage : List Nat
  total_attack : Nat
  pending_garbage : List Nat
  previous_action : String
  game_over : Bool
  rng : List Nat
deriving DecidableEq, Repr

/-- TetrominoGame.get_piece. -/
def getPiece (s : GameState) (pos : Int) : String :=
  if s.hold = false ∨ pos ≠ 0 then pyNth s.queue (s.queue_position + pos) ""
  else if s.held_index + 1 = s.queue_position then
    pyNth s.queue (s.queue_position + pos) ""
  else s.prev_held

/-- TetrominoGame.next_piece: advance the queue cursor, reset the anchor to
(19, 4) and orientation 0, set game_over if a spawn cell is occupied, and
write the spawn cells to the board (the write happens in either case). -/
def nextPiece (s : GameState) : GameState :=
  let s := { s with queue_position := s.queue_position + 1,
                    piece_position := ((19 : Int), (4 : Int)),
                    piece_orientation := 0 }
  let filled := (get_filled (getPiece s 0) s.piece_position
      s.piece_orientation).getD []
  let s := if filled.any (fun p => boardGet s.board p != "") then
      { s with game_over := true } else s
  { s with board := setCells s.board filled (getPiece s 0) }

/-- TetrominoGame.change_board: erase the current footprint, then draw the
footprint at the new position/orientation. -/
def changeBoard (s : GameState) (newPos : Int × Int) (newOrientation : Nat) :
    GameState :=
  let piece := getPiece s 0
  let current := (get_filled piece s.piece_position s.piece_orientation).getD []
  let b := setCells s.board current ""
  let newCells := (get_filled piece newPos newOrientation).getD []
  { s with board := setCells b newCells piece }

/-- Collision test shared by every translate/rotate attempt in game.py: every
target cell is empty or belongs to the piece's own current footprint. -/
def cellsFree (s : GameState) (current tiled : List (Int × Int)) : Bool :=
  tiled.all (fun p => boardGet s.board p == "" || current.contains p)

/-- TetrominoGame.move_left. -/
def moveLeft (s : GameState) : GameState × String :=
  let piece := getPiece s 0
  let current := (get_filled piece s.piece_position s.piece_orientation).getD []
  let newPos := (s.piece_position.1, s.piece_position.2 - 1)
  match get_filled piece newPos s.piece_orientation with
  | some tiled =>
    if cellsFree s current tiled then
      ({ changeBoard s newPos s.piece_orientation with
          piece_position := newPos, previous_action := "move" }, "moved")
    else (s, "not moved")
  | none => (s, "not moved")

/-- TetrominoGame.move_right. -/
def moveRight (s : GameState) : GameState × String :=
  let piece := getPiece s 0
  let current := (get_filled piece s.piece_position s.piece_orientation).getD []
  let newPos := (s.piece_position.1, s.piece_position.2 + 1)
  match get_filled piece newPos s.piece_orientation with
  | some tiled =>
    if cellsFree s current tiled then
      ({ changeBoard s newPos s.piece_orientation with
          piece_position := newPos, previous_action := "move" }, "moved")
    else (s, "not moved")
  | none => (s, "not moved")

/-- TetrominoGame.move_down. -/
def moveDown (s : GameState) : GameState × String :=
  let piece := getPiece s 0
  let current := (get_filled piece s.piece_position s.piece_orientation).getD []
  let newPos := (s.piece_position.1 - 1, s.piece_position.2)
  match get_filled piece newPos s.piece_orientation with
  | some tiled =>
    if cellsFree s current tiled then
      ({ changeBoard s newPos s.piece_orientation with
          piece_position := newPos, previous_action := "move" }, "moved")
    else (s, "not moved")
  | none => (s, "not moved")

/-- The bounded loop of TetrominoGame.soft_drop. -/
def softDropAux : Nat → GameState → GameState
  | 0, s => s
  | Nat.succ n, s =>
    let r := moveDown s
    if r.2 = "not moved" then r.1 else softDropAux n r.1

/-- TetrominoGame.soft_drop: move down until blocked (at most 40 times). -/
def softDrop (s : GameState) : GameState := softDropAux 40 s

/-- TetrominoGame.hold_piece. -/
def holdPiece (s : GameState) : GameState :=
  if s.hold = false then
    let current := (get_filled (getPiece s 0) s.piece_position
        s.piece_orientation).getD []
    let s := { s with board := setCells s.board current "" }
    if s.held = "" then
      let s := { s with held := pyNth s.queue s.queue_position "",
                        held_index := s.queue_position }
      let s := nextPiece s
      { s with hold := true }
    else
      let s := { s with prev_held := s.held, hold := true }
      let s := nextPiece s
      let s := { s with queue_position := s.queue_position - 1 }
      { s with held := pyNth s.queue s.queue_position "",
               held_index := s.queue_position }
  else s

/-- TetrominoGame.accept_pending: prepend no_lines garbage rows (solid except
one column, drawn from the rng stream) and pop the top row each time. -/
def acceptPending (s : GameState) (noLines : Nat) : GameState :=
  let random := s.rng.headD 0
  let s := { s with rng := s.rng.tail }
  let garbage := (List.range 10).map (fun i => if i = random then "" else "g")
  { s with board :=
      (List.range noLines).foldl (fun b _ => (garbage :: b).dropLast) s.board }

/-- The while loop in the no-clear branch of lock_piece: pop pending entries
from the front and accept each one, until the pending queue is empty. The
list argument mirrors s.pending_garbage (accept_pending never touches the
pending queue), making the recursion structural. -/
def drainLoop (s : GameState) : List Nat → GameState
  | [] => s
  | g :: rest => drainLoop (acceptPending { s with pending_garbage := rest } g) rest

/-- The pending-garbage drain of lock_piece's no-clear branch. -/
def drainPending (s : GameState) : GameState :=
  drainLoop s s.pending_garbage

/-- TetrominoGame.check_tiled: the indices i in piece row - 3 .. piece row + 3
whose board row is completely non-empty. An index whose row does not exist
(which would raise IndexError in Python) is not counted. -/
def checkTiled (s : GameState) : List Int :=
  ((List.range 7).map (fun k => s.piece_position.1 - 3 + k)).filter
    (fun i =>
      let row := pyNth s.board i []
      !row.isEmpty && row.all (fun v => v != ""))

/-- TetrominoGame.check_t_spin. -/
def checkTSpin (s : GameState) : String :=
  if s.previous_action ≠ "rotate" then "no"
  else
    let y := s.piece_position.1
    let x := s.piece_position.2
    if x = 0 then
      if boardGet s.board (y - 1, x + 1) ≠ "" ∧
          boardGet s.board (y + 1, x + 1) ≠ "" then "t"
      else if boardGet s.board (y - 1, x + 1) ≠ "" ∨
          boardGet s.board (y + 1, x + 1) ≠ "" then "mini"
      else "no"
    else if x = 9 then
      if boardGet s.board (y - 1, x - 1) ≠ "" ∧
          boardGet s.board (y + 1, x - 1) ≠ "" then "t"
      else if boardGet s.board (y - 1, x - 1) ≠ "" ∨
          boardGet s.board (y + 1, x - 1) ≠ "" then "mini"
      else "no"
    else if y = 0 then
      if boardGet s.board (y + 1, x + 1) ≠ "" ∨
          boardGet s.board (y + 1, x - 1) ≠ "" then "mini"
      else "no"
    else
      let missing :=
        (if boardGet s.board (y + 1, x + 1) = "" then ["tr"] else []) ++
        (if boardGet s.board (y + 1, x - 1) = "" then ["tl"] else []) ++
        (if boardGet s.board (y - 1, x + 1) = "" then ["br"] else []) ++
        (if boardGet s.board (y - 1, x - 1) = "" then ["bl"] else [])
      if missing.length > 1 then "no"
      else if s.piece_orientation = 0 ∧
          ("tr" ∈ missing ∨ "tl" ∈ missing) then "mini"
      else if s.piece_orientation = 1 ∧
          ("tr" ∈ missing ∨ "br" ∈ missing) then "mini"
      else if s.piece_orientation = 2 ∧
          ("bl" ∈ missing ∨ "br" ∈ missing) then "mini"
      else if s.piece_orientation = 3 ∧
          ("bl" ∈ missing ∨ "tl" ∈ missing) then "mini"
      else "t"

/-- The scoring block of lock_piece (game.py lines 264-290): given the spin
classification, the number of cleared lines, and the back-to-back flag and
combo before the lock, returns (attack before the all-clear override,
new back-to-back flag, new combo, placement type). -/
def lockScore (spin : String) (n : Nat) (b2b : Bool) (combo : Int) :
    Nat × Bool × Int × Int :=
  let bonusAndB2b : Nat × Bool :=
    if n = 4 ∨ spin = "t" ∨ spin = "mini" then
      if b2b = true then
        ((if spin ≠ "mini" ∨ n ≥ 2 then B2B_BONUS else 0), true)
      else (0, true)
    else (0, false)
  let base : Nat × Int :=
    if spin = "t" ∨ (spin = "mini" ∧ n ≥ 2) then
      (pyNth ATTACK_TABLE ((n : Int) + 4) 0, (n : Int) + 4)
    else if spin = "mini" then (pyNth ATTACK_TABLE 4 0, 4)
    else (pyNth ATTACK_TABLE ((n : Int) - 1) 0, (n : Int) - 1)
  let combo' := combo + 1
  (bonusAndB2b.1 + base.1 + pyNth COMBO_TABLE (min combo' 12) 0,
   bonusAndB2b.2, combo', base.2)

/-- The row-removal block of lock_piece (game.py lines 293-295): pop each
tiled row from the highest listed index down, appending an empty row at the
top after each pop. -/
def removeRows (b : Board) (tiled : List Int) : Board :=
  (List.range tiled.length).foldl
    (fun b (i : Nat) =>
      pyPop b (pyNth tiled ((tiled.length : Int) - (i : Int) - 1) 0) ++
        [List.replicate 10 ""])
    b

/-- TetrominoGame.lock_piece: returns the new state and the (raw attack,
tiled rows, placement type) tuple. -/
def lockPiece (s : GameState) : GameState × (Nat × List Int × Int) :=
  let s := { s with hold := false }
  let spin := if getPiece s 0 = "t" then checkTSpin s else "no"
  let tiled := checkTiled s
  if tiled = [] then
    let s := { s with current_combo := -1 }
    let s := drainPending s
    let s := { s with previous_action := "lock" }
    let s := nextPiece s
    (s, (0, [], -1))
  else
    let sc := lockScore spin tiled.length s.back_to_back s.current_combo
    let board2 := removeRows s.board tiled
    let allClear := board2.all (fun row => row.all (fun item => item == ""))
    let attack := if allClear then pyNth ATTACK_TABLE 8 0 else sc.1
    let placement : Int := if allClear then 8 else sc.2.2.2
    let rawAttack := attack
    let cg := cancelGarbage attack s.pending_garbage
    let sent' := if cg.1 ≠ 0 then s.sent_garbage ++ [cg.1] else s.sent_garbage
    let s := { s with back_to_back := sc.2.1, current_combo := sc.2.2.1,
                      board := board2, pending_garbage := cg.2,
                      sent_garbage := sent', previous_action := "lock" }
    let s := nextPiece s
    ({ s with total_attack := s.total_attack + rawAttack },
     (rawAttack, tiled, placement))

/-- TetrominoGame.hard_drop. -/
def hardDrop (s : GameState) : GameState := (lockPiece (softDrop s)).1

/-- A single candidate of a rotation kick table: true when the footprint at
the candidate position with the new orientation exists and is collision
free. -/
def kickFits (s : GameState) (piece : String) (current : List (Int × Int))
    (newO : Nat) (pos : Int × Int) : Bool :=
  match get_filled piece pos newO with
  | some tiled => cellsFree s current tiled
  | none => false

/-- Apply the first fitting candidate of a kick table, exactly as the
cascaded if blocks of rotate_cw / rotate_ccw do; when no candidate fits the
state is returned unchanged. -/
def tryRotate (s : GameState) (piece : String) (current : List (Int × Int))
    (newO : Nat) : List (Int × Int) → GameState
  | [] => s
  | pos :: rest =>
    if kickFits s piece current newO pos then
      { changeBoard s pos newO with
          piece_orientation := newO, piece_position := pos,
          previous_action := "rotate" }
    else tryRotate s piece current newO rest

/-- The clockwise kick table of rotate_cw, as (new orientation, candidate
anchor list); the empty list for the o piece (and for anything outside the
cases of the source, where rotate_cw falls through and does nothing). -/
def cwCandidates (s : GameState) (piece : String) : Nat × List (Int × Int) :=
  let y := s.piece_position.1
  let x := s.piece_position.2
  if piece ≠ "o" ∧ piece ≠ "i" then
    if s.piece_orientation = 0 then
      (1, [(y, x), (y, x - 1), (y + 1, x - 1), (y - 2, x), (y - 2, x - 1)])
    else if s.piece_orientation = 1 then
      (2, [(y, x), (y, x + 1), (y - 1, x + 1), (y + 2, x), (y + 2, x + 1)])
    else if s.piece_orientation = 2 then
      (3, [(y, x), (y, x + 1), (y + 1, x + 1), (y - 2, x), (y - 2, x + 1)])
    else if s.piece_orientation = 3 then
      (0, [(y, x), (y, x - 1), (y - 1, x - 1), (y + 2, x), (y + 2, x - 1)])
    else (0, [])
  else if piece = "i" then
    if s.piece_orientation = 0 then
      (1, [(y, x + 1), (y, x - 1), (y, x + 2), (y - 1, x - 1),
           (y + 2, x + 2)])
    else if s.piece_orientation = 1 then
      (2, [(y - 1, x), (y - 1, x - 1), (y - 1, x + 2), (y + 1, x - 1),
           (y - 2, x + 2)])
    else if s.piece_orientation = 2 then
      (3, [(y, x - 1), (y, x + 1), (y, x - 2), (y + 1, x + 1),
           (y - 2, x - 2)])
    else if s.piece_orientation = 3 then
      (0, [(y + 1, x), (y + 1, x + 1), (y + 1, x - 2), (y - 1, x + 1),
           (y + 2, x - 2)])
    else (0, [])
  else (0, [])

/-- The counterclockwise kick table of rotate_ccw. -/
def ccwCandidates (s : GameState) (piece : String) : Nat × List (Int × Int) :=
  let y := s.piece_position.1
  let x := s.piece_position.2
  if piece ≠ "o" ∧ piece ≠ "i" then
    if s.piece_orientation = 0 then
      (3, [(y, x), (y, x + 1), (y + 1, x + 1), (y - 2, x), (y - 2, x + 1)])
    else if s.piece_orientation = 3 then
      (2, [(y, x), (y, x - 1), (y - 1, x - 1), (y + 2, x), (y + 2, x - 1)])
    else if s.piece_orientation = 2 then
      (1, [(y, x), (y, x - 1), (y + 1, x - 1), (y - 2, x), (y - 2, x - 1)])
    else if s.piece_orientation = 1 then
      (0, [(y, x), (y, x + 1), (y - 1, x + 1), (y + 2, x), (y + 2, x + 1)])
    else (0, [])
  else if piece = "i" then
    if s.piece_orientation = 0 then
      (3, [(y - 1, x), (y - 1, x - 1), (y - 1, x + 2), (y + 1, x - 1),
           (y - 2, x + 2)])
    else if s.piece_orientation = 3 then
      (2, [(y + 1, x), (y - 1, x), (y + 2, x), (y - 1, x - 1),
           (y + 2, x + 2)])
    else if s.piece_orientation = 2 then
      (1, [(y + 1, x), (y + 1, x + 1), (y + 1, x - 2), (y - 1, x + 1),
           (y + 2, x - 2)])
    else if s.piece_orientation = 1 then
      (0, [(y, x - 1), (y, x + 1), (y, x - 2), (y + 1, x + 1),
           (y - 2, x - 2)])
    else (0, [])
  else (0, [])

/-- TetrominoGame.rotate_cw: try the kick candidates in table order and apply
the first that fits; otherwise do nothing. -/
def rotateCw (s : GameState) : GameState :=
  let piece := getPiece s 0
  let current := (get_filled piece s.piece_position s.piece_orientation).getD []
  let c := cwCandidates s piece
  tryRotate s piece current c.1 c.2

/-- TetrominoGame.rotate_ccw. -/
def rotateCcw (s : GameState) : GameState :=
  let piece := getPiece s 0
  let current := (get_filled piece s.piece_position s.piece_orientation).getD []
  let c := ccwCandidates s piece
  tryRotate s piece current c.1 c.2

/-- Whether some clockwise kick candidate fits (i.e. the rotation attempt can
be satisfied). -/
def rotCwFits (s : GameState) : Bool :=
  let piece := getPiece s 0
  let current := (get_filled piece s.piece_position s.piece_orientation).getD []
  let c := cwCandidates s piece
  c.2.any (kickFits s piece current c.1)

/-- Whether some counterclockwise kick candidate fits. -/
def rotCcwFits (s : GameState) : Bool :=
  let piece := getPiece s 0
  let current := (get_filled piece s.piece_position s.piece_orientation).getD []
  let c := ccwCandidates s piece
  c.2.any (kickFits s piece current c.1)

/-- TetrominoGame.__init__: empty board, scalars reset, then spawn the first
piece; the rng stream seeds accept_pending's random column choices. -/
def initGame (queue : List String) (rng : List Nat) : GameState :=
  let s : GameState :=
    { board := List.replicate 40 (List.replicate 10 "")
      queue := queue
      queue_position := -1
      current_combo := -1
      back_to_back := false
      piece_position := (0, 0)
      piece_orientation := 0
      hold := false
      held := ""
      prev_held := ""
      held_index := -1
      sent_garbage := []
      total_attack := 0
      pending_garbage := []
      previous_action := ""
      game_over := false
      rng := rng }
  nextPiece s

/-- States reachable from a fresh game through the engine's action surface
(the driver may also append to pending_garbage). -/
inductive Reachable : GameState → Prop where
  | init : ∀ queue rng, Reachable (initGame queue rng)
  | moveLeft : ∀ s, Reachable s → Reachable (moveLeft s).1
  | moveRight : ∀ s, Reachable s → Reachable (moveRight s).1
  | moveDown : ∀ s, Reachable s → Reachable (moveDown s).1
  | rotateCw : ∀ s, Reachable s → Reachable (rotateCw s)
  | rotateCcw : ∀ s, Reachable s → Reachable (rotateCcw s)
  | holdPiece : ∀ s, Reachable s → Reachable (holdPiece s)
  | softDrop : ∀ s, Reachable s → Reachable (softDrop s)
  | hardDrop : ∀ s, Reachable s → Reachable (hardDrop s)
  | lockPiece : ∀ s, Reachable s → Reachable (lockPiece s).1
  | receiveGarbage : ∀ s n, Reachable s →
      Reachable { s with pending_garbage := s.pending_garbage ++ [n] }

/-! ### Concrete states used to evaluate the engine -/

/-- A neutral state template: empty board, fresh scalars, a t piece at the
spawn cell. -/
def baseState : GameState :=
  { board := List.replicate 40 (List.replicate 10 "")
    queue := ["t", "t"], queue_position := 0, current_combo := -1
    back_to_back := false, piece_position := (19, 4), piece_orientation := 0
    hold := false, held := "", prev_held := "", held_index := -1
    sent_garbage := [], total_attack := 0, pending_garbage := []
    previous_action := "", game_over := false, rng := [] }

/-- A state about to clear four rows: the vertical i piece occupies rows 0-3
of column 9, rows 0-3 of columns 0-8 are garbage, one extra garbage cell at
(5, 0) prevents an all clear, and 5 lines of garbage are pending. -/
def sQuad : GameState :=
  { baseState with
    queue := ["i", "t"], piece_position := (2, 9), piece_orientation := 1
    pending_garbage := [5]
    board :=
      setCells (setCells (setCells (List.replicate 40 (List.replicate 10 ""))
        ((List.range 4).flatMap
          (fun r => (List.range 9).map (fun c => ((r : Int), (c : Int)))))
        "g")
        [(3, 9), (2, 9), (1, 9), (0, 9)] "i") [(5, 0)] "g" }

/-- A state whose lock clears nothing: the t piece sits at the spawn cell of
an otherwise empty board, with two pending-garbage entries of one line
each. -/
def sPend : GameState :=
  { baseState with
    current_combo := 5, pending_garbage := [1, 1], rng := [3, 3]
    board := setCells (List.replicate 40 (List.replicate 10 ""))
      [(19, 3), (19, 4), (19, 5), (20, 4)] "t" }

/-- A state about to lock a t-spin-mini single with the back-to-back flag
already set: the t piece hugs the left wall in orientation 1 after a
rotation, row 1 is full, and exactly one inward diagonal is occupied. -/
def sMini : GameState :=
  { baseState with
    back_to_back := true, previous_action := "rotate"
    piece_position := (1, 0), piece_orientation := 1
    board := setCells (setCells (List.replicate 40 (List.replicate 10 ""))
      [(2, 0), (1, 0), (0, 0), (1, 1)] "t")
      ((List.range 8).map (fun c => ((1 : Int), (c + 2 : Int))) ++ [(0, 1)])
      "g" }

/-- A state whose next spawn collides: cell (19, 4) is already garbage and
the queue's next piece is the o piece spawning at (19, 4). -/
def sCol : GameState :=
  { baseState with
    queue := ["o"], queue_position := -1
    board := setCells (List.replicate 40 (List.replicate 10 "")) [(19, 4)] "g" }

/-- Reachable state for the round-trip counterexample: from a fresh game with
four o pieces, drop the first at the far left, the second two columns from
the left, then soft drop the third; the active o piece rests on the floor at
anchor (0, 4) with the stack to its immediate left. -/
def sRound : GameState :=
  let a := (moveLeft (moveLeft (moveLeft (moveLeft
    (initGame ["o", "o", "o", "o"] [])).1).1).1).1
  let b := (moveLeft (moveLeft (hardDrop a)).1).1
  softDrop (hardDrop b)

/-- The board-shape representation invariant of TetrominoGame: 40 rows of 10
cells. -/
def boardOK (b : Board) : Prop :=
  b.length = 40 ∧ ∀ row ∈ b, row.length = 10

instance (b : Board) : Decidable (boardOK b) := by
  unfold boardOK
  infer_instance

/-- The piece that next_piece places: the queue piece at the advanced cursor,
resolved through the hold rule of get_piece. -/
def spawnPiece (s : GameState) : String :=
  getPiece { s with queue_position := s.queue_position + 1,
                    piece_position := ((19 : Int), (4 : Int)),
                    piece_orientation := 0 } 0

/-- The footprint that next_piece writes: the spawn cells of the piece to
place at anchor (19, 4), orientation 0. -/
def spawnCells (s : GameState) : List (Int × Int) :=
  (get_filled (spawnPiece s) ((19 : Int), (4 : Int)) 0).getD []

/-- A state in which every translate and rotate attempt fails: the o piece is
wedged in the bottom-left corner with garbage directly to its right. -/
def sBlocked : GameState :=
  { baseState with
    queue := ["o"], piece_position := (0, 0), piece_orientation := 0
    board := setCells (setCells (List.replicate 40 (List.replicate 10 ""))
      [(0, 0), (0, 1), (1, 0), (1, 1)] "o") [(0, 2), (1, 2)] "g" }

/-- A state with the t piece validly drawn at the spawn cell of an empty
board; moving left succeeds here. -/
def sFree : GameState :=
  { baseState with
    board := setCells (List.replicate 40 (List.replicate 10 ""))
      [(19, 3), (19, 4), (19, 5), (20, 4)] "t" }

/-! ### Facts about the Python-style list primitives -/

theorem pyIdx_nonneg (len : Nat) (i : Int) (h : 0 ≤ i) : pyIdx len i = i := by
  unfold pyIdx
  omega

theorem pyNth_nonneg (l : List α) (i : Int) (d : α) (h : 0 ≤ i) :
    pyNth l i d = l.getD i.toNat d := by
  unfold pyNth
  rw [pyIdx_nonneg _ _ h]
  split
  · rfl
  · rw [List.getD_eq_default]
    omega

theorem pyNth_ne_default (l : List α) (i : Int) (d : α) (h : pyNth l i d ≠ d) :
    0 ≤ pyIdx l.length i ∧ pyIdx l.length i < (l.length : Int) := by
  by_contra hc
  apply h
  unfold pyNth
  rw [if_neg hc]

theorem length_pySet (l : List α) (i : Int) (v : α) :
    (pySet l i v).length = l.length := by
  unfold pySet
  split
  · exact List.length_set l _ v
  · rfl

theorem mem_pySet (l : List α) (i : Int) (v : α) (a : α)
    (h : a ∈ pySet l i v) : a ∈ l ∨ a = v := by
  unfold pySet at h
  split at h
  · rcases List.mem_or_eq_of_mem_set h with h1 | h1
    · exact Or.inl h1
    · exact Or.inr h1
  · exact Or.inl h

theorem length_pyPop_inrange (l : List α) (i : Int)
    (h : 0 ≤ pyIdx l.length i ∧ pyIdx l.length i < (l.length : Int)) :
    (pyPop l i).length = l.length - 1 := by
  unfold pyPop
  rw [if_pos h, List.length_eraseIdx]
  rw [if_pos]
  omega

theorem mem_pyPop (l : List α) (i : Int) (a : α) (h : a ∈ pyPop l i) :
    a ∈ l := by
  unfold pyPop at h
  split at h
  · exact (List.eraseIdx_sublist l _).mem h
  · exact h

theorem pyNth_mem_or_default (l : List α) (i : Int) (d : α) :
    pyNth l i d ∈ l ∨ pyNth l i d = d := by
  unfold pyNth
  split
  · rename_i hin
    left
    rw [List.getD_eq_getElem l d (by omega)]
    exact List.getElem_mem _
  · right
    rfl

theorem pyNth_inrange (l : List α) (i : Int) (d : α) (h1 : 0 ≤ i)
    (h2 : i < (l.length : Int)) : pyNth l i d = l.getD i.toNat d := by
  unfold pyNth
  rw [pyIdx_nonneg _ _ h1, if_pos ⟨h1, h2⟩]

/-! ### Preservation of the board shape (40 rows of 10 cells) -/

theorem boardOK_replicate : boardOK (List.replicate 40 (List.replicate 10 "")) := by
  constructor
  · simp
  · intro row hrow
    rw [List.eq_of_mem_replicate hrow]
    simp

theorem pyNth_eq_of_cond (l : List α) (i : Int) (d : α)
    (h : 0 ≤ pyIdx l.length i ∧ pyIdx l.length i < (l.length : Int)) :
    pyNth l i d = l.getD (pyIdx l.length i).toNat d := by
  unfold pyNth
  rw [if_pos h]

theorem pyNth_mem (l : List α) (i : Int) (d : α)
    (h : 0 ≤ pyIdx l.length i ∧ pyIdx l.length i < (l.length : Int)) :
    pyNth l i d ∈ l := by
  rw [pyNth_eq_of_cond l i d h, List.getD_eq_getElem l d (by omega)]
  exact List.getElem_mem _

theorem boardOK_boardSet (b : Board) (p : Int × Int) (v : String)
    (h : boardOK b) : boardOK (boardSet b p v) := by
  obtain ⟨hlen, hrows⟩ := h
  unfold boardSet
  refine ⟨by rw [length_pySet, hlen], ?_⟩
  intro row hrow
  unfold pySet at hrow
  split at hrow
  · rename_i hin
    rcases List.mem_or_eq_of_mem_set hrow with hmem | heq
    · exact hrows row hmem
    · subst heq
      split
      · rw [List.length_set]
        exact hrows _ (pyNth_mem b p.1 [] hin)
      · exact hrows _ (pyNth_mem b p.1 [] hin)
  · exact hrows row hrow

theorem boardOK_setCells (b : Board) (cells : List (Int × Int)) (v : String)
    (h : boardOK b) : boardOK (setCells b cells v) := by
  induction cells generalizing b with
  | nil => exact h
  | cons p rest ih => exact ih _ (boardOK_boardSet b p v h)

theorem checkTiled_bounds (s : GameState) (hOK : boardOK s.board) :
    ∀ i ∈ checkTiled s, -40 ≤ i ∧ i < 40 := by
  intro i hi
  unfold checkTiled at hi
  rw [List.mem_filter] at hi
  obtain ⟨_, hcond⟩ := hi
  rw [Bool.and_eq_true, Bool.not_eq_true'] at hcond
  have hne : pyNth s.board i [] ≠ [] := by
    intro hemp
    rw [hemp] at hcond
    simp at hcond
  have := pyNth_ne_default s.board i [] hne
  obtain ⟨hlen, _⟩ := hOK
  rw [hlen] at this
  unfold pyIdx at this
  split at this <;> omega

theorem boardOK_pop_append (b : Board) (i : Int) (hOK : boardOK b)
    (h : -40 ≤ i ∧ i < 40) :
    boardOK (pyPop b i ++ [List.replicate 10 ""]) := by
  obtain ⟨hlen, hrows⟩ := hOK
  have hin : 0 ≤ pyIdx b.length i ∧ pyIdx b.length i < (b.length : Int) := by
    rw [hlen]
    unfold pyIdx
    split <;> omega
  constructor
  · rw [List.length_append, length_pyPop_inrange b i hin, hlen]
    rfl
  · intro row hrow
    rcases List.mem_append.1 hrow with hmem | hmem
    · exact hrows row (mem_pyPop b i row hmem)
    · rw [List.mem_singleton.1 hmem]
      simp

theorem boardOK_removeRows (b : Board) (tiled : List Int) (hOK : boardOK b)
    (htiled : ∀ i ∈ tiled, -40 ≤ i ∧ i < 40) :
    boardOK (removeRows b tiled) := by
  unfold removeRows
  generalize List.range tiled.length = idxs
  induction idxs generalizing b with
  | nil => exact hOK
  | cons k rest ih =>
    rw [List.foldl_cons]
    apply ih
    apply boardOK_pop_append b _ hOK
    rcases pyNth_mem_or_default tiled ((tiled.length : Int) - (k : Int) - 1) 0
      with hmem | hdef
    · exact htiled _ hmem
    · rw [hdef]
      omega

theorem boardOK_garbage_fold (g : List String) (hg : g.length = 10)
    (b : Board) (hOK : boardOK b) (reps : List Nat) :
    boardOK (reps.foldl (fun b _ => (g :: b).dropLast) b) := by
  induction reps generalizing b with
  | nil => exact hOK
  | cons k rest ih =>
    rw [List.foldl_cons]
    apply ih
    obtain ⟨hlen, hrows⟩ := hOK
    constructor
    · rw [List.length_dropLast, List.length_cons, hlen]
    · intro row hrow
      have hrow2 := (List.dropLast_sublist _).mem hrow
      rcases List.mem_cons.1 hrow2 with heq | hmem
      · rw [heq]
        exact hg
      · exact hrows row hmem

theorem boardOK_acceptPending (s : GameState) (n : Nat)
    (hOK : boardOK s.board) : boardOK (acceptPending s n).board := by
  unfold acceptPending
  dsimp only
  exact boardOK_garbage_fold _ (by simp) s.board hOK _

/-! ### Which scalar fields each operation preserves -/

theorem acceptPending_fields (s : GameState) (n : Nat) :
    (acceptPending s n).pending_garbage = s.pending_garbage ∧
    (acceptPending s n).current_combo = s.current_combo ∧
    (acceptPending s n).sent_garbage = s.sent_garbage ∧
    (acceptPending s n).hold = s.hold ∧
    (acceptPending s n).queue = s.queue ∧
    (acceptPending s n).queue_position = s.queue_position ∧
    (acceptPending s n).back_to_back = s.back_to_back :=
  ⟨rfl, rfl, rfl, rfl, rfl, rfl, rfl⟩

theorem nextPiece_fields (s : GameState) :
    (nextPiece s).pending_garbage = s.pending_garbage ∧
    (nextPiece s).current_combo = s.current_combo ∧
    (nextPiece s).sent_garbage = s.sent_garbage ∧
    (nextPiece s).back_to_back = s.back_to_back ∧
    (nextPiece s).queue_position = s.queue_position + 1 ∧
    (nextPiece s).piece_position = (19, 4) ∧
    (nextPiece s).piece_orientation = 0 := by
  unfold nextPiece
  dsimp only
  split <;> exact ⟨rfl, rfl, rfl, rfl, rfl, rfl, rfl⟩

theorem drainLoop_fields (l : List Nat) (s : GameState)
    (hs : s.pending_garbage = l) :
    (drainLoop s l).pending_garbage = [] ∧
    (drainLoop s l).current_combo = s.current_combo ∧
    (drainLoop s l).sent_garbage = s.sent_garbage ∧
    (drainLoop s l).back_to_back = s.back_to_back := by
  induction l generalizing s with
  | nil =>
    refine ⟨?_, rfl, rfl, rfl⟩
    rw [show drainLoop s [] = s from rfl, hs]
  | cons g rest ih =>
    have := ih (acceptPending { s with pending_garbage := rest } g) rfl
    exact this

theorem drainPending_fields (s : GameState) :
    (drainPending s).pending_garbage = [] ∧
    (drainPending s).current_combo = s.current_combo ∧
    (drainPending s).sent_garbage = s.sent_garbage ∧
    (drainPending s).back_to_back = s.back_to_back :=
  drainLoop_fields s.pending_garbage s rfl

/-! ### Board-shape preservation for every engine operation -/

theorem boardOK_changeBoard (s : GameState) (p : Int × Int) (o : Nat)
    (hOK : boardOK s.board) : boardOK (changeBoard s p o).board := by
  unfold changeBoard
  dsimp only
  exact boardOK_setCells _ _ _ (boardOK_setCells _ _ _ hOK)

theorem boardOK_nextPiece (s : GameState) (hOK : boardOK s.board) :
    boardOK (nextPiece s).board := by
  unfold nextPiece
  dsimp only
  split <;> exact boardOK_setCells _ _ _ hOK

theorem boardOK_moveLeft (s : GameState) (hOK : boardOK s.board) :
    boardOK ((moveLeft s).1).board := by
  unfold moveLeft
  dsimp only
  split
  · split
    · exact boardOK_changeBoard _ _ _ hOK
    · exact hOK
  · exact hOK

theorem boardOK_moveRight (s : GameState) (hOK : boardOK s.board) :
    boardOK ((moveRight s).1).board := by
  unfold moveRight
  dsimp only
  split
  · split
    · exact boardOK_changeBoard _ _ _ hOK
    · exact hOK
  · exact hOK

theorem boardOK_moveDown (s : GameState) (hOK : boardOK s.board) :
    boardOK ((moveDown s).1).board := by
  unfold moveDown
  dsimp only
  split
  · split
    · exact boardOK_changeBoard _ _ _ hOK
    · exact hOK
  · exact hOK

theorem boardOK_tryRotate (s : GameState) (piece : String)
    (current : List (Int × Int)) (newO : Nat) (cands : List (Int × Int))
    (hOK : boardOK s.board) :
    boardOK (tryRotate s piece current newO cands).board := by
  induction cands with
  | nil => exact hOK
  | cons pos rest ih =>
    unfold tryRotate
    split
    · exact boardOK_changeBoard _ _ _ hOK
    · exact ih

theorem boardOK_rotateCw (s : GameState) (hOK : boardOK s.board) :
    boardOK (rotateCw s).board := by
  unfold rotateCw
  exact boardOK_tryRotate _ _ _ _ _ hOK

theorem boardOK_rotateCcw (s : GameState) (hOK : boardOK s.board) :
    boardOK (rotateCcw s).board := by
  unfold rotateCcw
  exact boardOK_tryRotate _ _ _ _ _ hOK

theorem boardOK_holdPiece (s : GameState) (hOK : boardOK s.board) :
    boardOK (holdPiece s).board := by
  unfold holdPiece
  dsimp only
  split
  · split
    · exact boardOK_nextPiece _ (boardOK_setCells _ _ _ hOK)
    · exact boardOK_nextPiece _ (boardOK_setCells _ _ _ hOK)
  · exact hOK

theorem boardOK_softDropAux (fuel : Nat) (s : GameState)
    (hOK : boardOK s.board) : boardOK (softDropAux fuel s).board := by
  induction fuel generalizing s with
  | zero => exact hOK
  | succ n ih =>
    unfold softDropAux
    dsimp only
    split
    · exact boardOK_moveDown s hOK
    · exact ih _ (boardOK_moveDown s hOK)

theorem boardOK_softDrop (s : GameState) (hOK : boardOK s.board) :
    boardOK (softDrop s).board :=
  boardOK_softDropAux 40 s hOK

theorem boardOK_drainLoop (l : List Nat) (s : GameState)
    (hOK : boardOK s.board) : boardOK (drainLoop s l).board := by
  induction l generalizing s with
  | nil => exact hOK
  | cons g rest ih =>
    exact ih _ (boardOK_acceptPending { s with pending_garbage := rest } g hOK)

theorem boardOK_lockPiece (s : GameState) (hOK : boardOK s.board) :
    boardOK ((lockPiece s).1).board := by
  unfold lockPiece
  dsimp only
  split
  · exact boardOK_nextPiece _ (boardOK_drainLoop _ _ hOK)
  · apply boardOK_nextPiece
    apply boardOK_removeRows _ _ hOK
    exact checkTiled_bounds { s with hold := false } hOK

theorem boardOK_hardDrop (s : GameState) (hOK : boardOK s.board) :
    boardOK (hardDrop s).board :=
  boardOK_lockPiece _ (boardOK_softDrop s hOK)

theorem boardOK_initGame (queue : List String) (rng : List Nat) :
    boardOK (initGame queue rng).board :=
  boardOK_nextPiece _ boardOK_replicate

/-! ### Structure of lock_piece -/

theorem lockPiece_of_noclear (s : GameState)
    (h : checkTiled { s with hold := false } = []) :
    lockPiece s =
      (nextPiece
        { drainPending { { s with hold := false } with current_combo := -1 } with
            previous_action := "lock" },
       (0, [], -1)) := by
  unfold lockPiece
  dsimp only
  rw [h]
  rw [if_pos rfl]

theorem lockPiece_b2b_of_clear (s : GameState)
    (h : ¬ checkTiled { s with hold := false } = []) :
    (lockPiece s).1.back_to_back =
      (lockScore
        (if getPiece { s with hold := false } 0 = "t" then
          checkTSpin { s with hold := false } else "no")
        (checkTiled { s with hold := false }).length
        s.back_to_back s.current_combo).2.1 := by
  unfold lockPiece
  dsimp only
  rw [if_neg h]
  exact (nextPiece_fields _).2.2.2.1

theorem lockScore_qualifies_b2b (spin : String) (n : Nat) (b2b : Bool)
    (combo : Int) (h : n = 4 ∨ spin = "t" ∨ spin = "mini") :
    (lockScore spin n b2b combo).2.1 = true := by
  unfold lockScore
  dsimp only
  rw [if_pos h]
  split <;> rfl

theorem lockScore_b2b_bonus (spin : String) (n : Nat) (combo : Int)
    (hq : n = 4 ∨ spin = "t" ∨ spin = "mini")
    (hnm : spin ≠ "mini" ∨ 2 ≤ n) :
    (lockScore spin n true combo).1 =
      (lockScore spin n false combo).1 + B2B_BONUS := by
  unfold lockScore B2B_BONUS
  dsimp only
  rw [if_pos hq, if_pos hq]
  rw [if_pos rfl]
  have : ¬ (false = true) := by decide
  rw [if_neg this]
  rw [if_pos (by tauto : spin ≠ "mini" ∨ n ≥ 2)]
  dsimp only
  omega

/-! ### Piece geometry: a successful get_filled returns 4 cells with columns
in 0-9 and nonnegative rows (rows have no upper bound) -/

set_option maxHeartbeats 4000000 in
theorem get_filled_bounds (piece : String) (pos : Int × Int) (o : Nat)
    (cells : List (Int × Int)) (h : get_filled piece pos o = some cells) :
    cells.length = 4 ∧ ∀ c ∈ cells, 0 ≤ c.1 ∧ 0 ≤ c.2 ∧ c.2 ≤ 9 := by
  by_cases h1 : piece = "l"
  case pos =>
    subst h1
    simp [get_filled] at h
    try split_ifs at h
    all_goals
      subst_vars
    all_goals
      norm_num at h
    all_goals
      obtain ⟨hb, heq⟩ := h
      repeat obtain ⟨hb2, heq⟩ := heq
      first
        | rfl
        | (intro c hc
           simp only [List.mem_cons, List.not_mem_nil, or_false] at hc
           rcases hc with rfl | rfl | rfl | rfl <;>
             (refine ⟨?_, ?_, ?_⟩ <;> dsimp only <;> omega))
        | (refine ⟨rfl, ?_⟩
           intro c hc
           simp only [List.mem_cons, List.not_mem_nil, or_false] at hc
           rcases hc with rfl | rfl | rfl | rfl <;>
             (refine ⟨?_, ?_, ?_⟩ <;> dsimp only <;> omega))
  by_cases h2 : piece = "j"
  case pos =>
    subst h2
    simp [get_filled] at h
    try split_ifs at h
    all_goals
      subst_vars
    all_goals
      norm_num at h
    all_goals
      obtain ⟨hb, heq⟩ := h
      repeat obtain ⟨hb2, heq⟩ := heq
      first
        | rfl
        | (intro c hc
           simp only [List.mem_cons, List.not_mem_nil, or_false] at hc
           rcases hc with rfl | rfl | rfl | rfl <;>
             (refine ⟨?_, ?_, ?_⟩ <;> dsimp only <;> omega))
        | (refine ⟨rfl, ?_⟩
           intro c hc
           simp only [List.mem_cons, List.not_mem_nil, or_false] at hc
           rcases hc with rfl | rfl | rfl | rfl <;>
             (refine ⟨?_, ?_, ?_⟩ <;> dsimp only <;> omega))
  by_cases h3 : piece = "t"
  case pos =>
    subst h3
    simp [get_filled] at h
    try split_ifs at h
    all_goals
      subst_vars
    all_goals
      norm_num at h
    all_goals
      obtain ⟨hb, heq⟩ := h
      repeat obtain ⟨hb2, heq⟩ := heq
      first
        | rfl
        | (intro c hc
           simp only [List.mem_cons, List.not_mem_nil, or_false] at hc
           rcases hc with rfl | rfl | rfl | rfl <;>
             (refine ⟨?_, ?_, ?_⟩ <;> dsimp only <;> omega))
        | (refine ⟨rfl, ?_⟩
           intro c hc
           simp only [List.mem_cons, List.not_mem_nil, or_false] at hc
           rcases hc with rfl | rfl | rfl | rfl <;>
             (refine ⟨?_, ?_, ?_⟩ <;> dsimp only <;> omega))
  by_cases h4 : piece = "s"
  case pos =>
    subst h4
    simp [get_filled] at h
    try split_ifs at h
    all_goals
      subst_vars
    all_goals
      norm_num at h
    all_goals
      obtain ⟨hb, heq⟩ := h
      repeat obtain ⟨hb2, heq⟩ := heq
      first
        | rfl
        | (intro c hc
           simp only [List.mem_cons, List.not_mem_nil, or_false] at hc
           rcases hc with rfl | rfl | rfl | rfl <;>
             (refine ⟨?_, ?_, ?_⟩ <;> dsimp only <;> omega))
        | (refine ⟨rfl, ?_⟩
           intro c hc
           simp only [List.mem_cons, List.not_mem_nil, or_false] at hc
           rcases hc with rfl | rfl | rfl | rfl <;>
             (refine ⟨?_, ?_, ?_⟩ <;> dsimp only <;> omega))
  by_cases h5 : piece = "z"
  case pos =>
    subst h5
    simp [get_filled] at h
    try split_ifs at h
    all_goals
      subst_vars
    all_goals
      norm_num at h
    all_goals
      obtain ⟨hb, heq⟩ := h
      repeat obtain ⟨hb2, heq⟩ := heq
      first
        | rfl
        | (intro c hc
           simp only [List.mem_cons, List.not_mem_nil, or_false] at hc
           rcases hc with rfl | rfl | rfl | rfl <;>
             (refine ⟨?_, ?_, ?_⟩ <;> dsimp only <;> omega))
        | (refine ⟨rfl, ?_⟩
           intro c hc
           simp only [List.mem_cons, List.not_mem_nil, or_false] at hc
           rcases hc with rfl | rfl | rfl | rfl <;>
             (refine ⟨?_, ?_, ?_⟩ <;> dsimp only <;> omega))
  by_cases h6 : piece = "o"
  case pos =>
    subst h6
    simp [get_filled] at h
    try split_ifs at h
    all_goals
      subst_vars
    all_goals
      norm_num at h
    all_goals
      obtain ⟨hb, heq⟩ := h
      repeat obtain ⟨hb2, heq⟩ := heq
      first
        | rfl
        | (intro c hc
           simp only [List.mem_cons, List.not_mem_nil, or_false] at hc
           rcases hc with rfl | rfl | rfl | rfl <;>
             (refine ⟨?_, ?_, ?_⟩ <;> dsimp only <;> omega))
        | (refine ⟨rfl, ?_⟩
           intro c hc
           simp only [List.mem_cons, List.not_mem_nil, or_false] at hc
           rcases hc with rfl | rfl | rfl | rfl <;>
             (refine ⟨?_, ?_, ?_⟩ <;> dsimp only <;> omega))
  by_cases h7 : piece = "i"
  case pos =>
    subst h7
    simp [get_filled] at h
    try split_ifs at h
    all_goals
      subst_vars
    all_goals
      norm_num at h
    all_goals
      obtain ⟨hb, heq⟩ := h
      repeat obtain ⟨hb2, heq⟩ := heq
      first
        | rfl
        | (intro c hc
           simp only [List.mem_cons, List.not_mem_nil, or_false] at hc
           rcases hc with rfl | rfl | rfl | rfl <;>
             (refine ⟨?_, ?_, ?_⟩ <;> dsimp only <;> omega))
        | (refine ⟨rfl, ?_⟩
           intro c hc
           simp only [List.mem_cons, List.not_mem_nil, or_false] at hc
           rcases hc with rfl | rfl | rfl | rfl <;>
             (refine ⟨?_, ?_, ?_⟩ <;> dsimp only <;> omega))
  case neg =>
    simp [get_filled, h1, h2, h3, h4, h5, h6, h7] at h

/-! ### A cell-level view of the board -/

theorem getD_set_ne (l : List α) (i j : Nat) (a : α) (d : α) (h : i ≠ j) :
    (l.set i a).getD j d = l.getD j d := by
  rw [List.getD_eq_getElem?_getD, List.getD_eq_getElem?_getD,
    List.getElem?_set_ne h]

theorem getD_set_self (l : List α) (i : Nat) (a : α) (d : α)
    (h : i < l.length) : (l.set i a).getD i d = a := by
  rw [List.getD_eq_getElem?_getD, List.getElem?_set_eq_of_lt a h]
  rfl

theorem boardOK_row_length (b : Board) (hOK : boardOK b) (r : Nat)
    (hr : r < 40) : (b.getD r []).length = 10 := by
  obtain ⟨hlen, hrows⟩ := hOK
  apply hrows
  rw [List.getD_eq_getElem b [] (by omega)]
  exact List.getElem_mem _

/-- Reading a cell by natural-number row and column. -/
def cellAt (b : Board) (r c : Nat) : String := (b.getD r []).getD c ""

theorem boardGet_eq_cellAt (b : Board) (r c : Int) (hr : 0 ≤ r)
    (hc : 0 ≤ c) : boardGet b (r, c) = cellAt b r.toNat c.toNat := by
  unfold boardGet cellAt
  dsimp only
  rw [pyNth_nonneg _ _ _ hr, pyNth_nonneg _ _ _ hc]

theorem boardGet_ne_empty_inrange (b : Board) (hOK : boardOK b)
    (p : Int × Int) (hp1 : 0 ≤ p.1) (hp2 : 0 ≤ p.2)
    (h : boardGet b p ≠ "") : p.1 < 40 ∧ p.2 < 10 := by
  have hb : boardGet b (p.1, p.2) = cellAt b p.1.toNat p.2.toNat :=
    boardGet_eq_cellAt b p.1 p.2 hp1 hp2
  rw [show (p.1, p.2) = p from rfl] at hb
  by_contra hcon
  apply h
  rw [hb]
  unfold cellAt
  by_cases h40 : p.1 < 40
  · have h10 : ¬ p.2 < 10 := fun hlt => hcon ⟨h40, hlt⟩
    rw [List.getD_eq_default _ _
      (by rw [boardOK_row_length b hOK p.1.toNat (by omega)]; omega)]
  · rw [List.getD_eq_default b [] (by rw [hOK.1]; omega)]
    rfl

theorem pySet_eq_set (l : List α) (i : Int) (v : α) (h1 : 0 ≤ i)
    (h2 : i < (l.length : Int)) : pySet l i v = l.set i.toNat v := by
  unfold pySet
  rw [pyIdx_nonneg _ _ h1, if_pos ⟨h1, h2⟩]

theorem pySet_oor (l : List α) (i : Int) (v : α) (h1 : 0 ≤ i)
    (h2 : ¬ i < (l.length : Int)) : pySet l i v = l := by
  unfold pySet
  rw [pyIdx_nonneg _ _ h1, if_neg (by omega)]

theorem cellAt_boardSet (b : Board) (hOK : boardOK b) (p : Int × Int)
    (v : String) (hp1 : 0 ≤ p.1) (hp2 : 0 ≤ p.2) (r c : Nat) (hr : r < 40)
    (hc : c < 10) :
    cellAt (boardSet b p v) r c =
      if p.1.toNat = r ∧ p.2.toNat = c ∧ p.1 < 40 ∧ p.2 < 10 then v
      else cellAt b r c := by
  have hlen := hOK.1
  unfold boardSet
  by_cases h40 : p.1 < 40
  · rw [pySet_eq_set _ _ _ hp1 (by omega)]
    by_cases hreq : p.1.toNat = r
    · subst hreq
      unfold cellAt
      rw [getD_set_self _ _ _ _ (by omega)]
      rw [pyNth_nonneg _ _ _ hp1]
      have hrow : (b.getD p.1.toNat []).length = 10 :=
        boardOK_row_length b hOK p.1.toNat (by omega)
      by_cases h10 : p.2 < 10
      · rw [pySet_eq_set _ _ _ hp2 (by rw [hrow]; omega)]
        by_cases hceq : p.2.toNat = c
        · subst hceq
          rw [getD_set_self _ _ _ _ (by rw [hrow]; omega)]
          rw [if_pos ⟨rfl, rfl, h40, h10⟩]
        · rw [getD_set_ne _ _ _ _ _ hceq]
          rw [if_neg (fun hcon => hceq hcon.2.1)]
      · rw [pySet_oor _ _ _ hp2 (by rw [hrow]; omega)]
        rw [if_neg (fun hcon => h10 hcon.2.2.2)]
    · unfold cellAt
      rw [getD_set_ne _ _ _ _ _ hreq]
      rw [if_neg (fun hcon => hreq hcon.1)]
  · rw [pySet_oor _ _ _ hp1 (by omega)]
    rw [if_neg (fun hcon => h40 hcon.2.2.1)]

theorem cellAt_setCells (b : Board) (hOK : boardOK b)
    (cells : List (Int × Int)) (v : String)
    (hcells : ∀ p ∈ cells, 0 ≤ p.1 ∧ 0 ≤ p.2) (r c : Nat) (hr : r < 40)
    (hc : c < 10) :
    cellAt (setCells b cells v) r c =
      if ∃ p ∈ cells, p.1.toNat = r ∧ p.2.toNat = c ∧ p.1 < 40 ∧ p.2 < 10
      then v else cellAt b r c := by
  induction cells generalizing b with
  | nil => simp [setCells]
  | cons p rest ih =>
    have hp := hcells p (List.mem_cons_self _ _)
    have hrest : ∀ q ∈ rest, 0 ≤ q.1 ∧ 0 ≤ q.2 :=
      fun q hq => hcells q (List.mem_cons_of_mem _ hq)
    have hstep : setCells b (p :: rest) v = setCells (boardSet b p v) rest v :=
      rfl
    rw [hstep, ih (boardSet b p v) (boardOK_boardSet b p v hOK) hrest]
    rw [cellAt_boardSet b hOK p v hp.1 hp.2 r c hr hc]
    by_cases hrest2 : ∃ q ∈ rest, q.1.toNat = r ∧ q.2.toNat = c ∧
        q.1 < 40 ∧ q.2 < 10
    · rw [if_pos hrest2, if_pos]
      obtain ⟨q, hq, hq2⟩ := hrest2
      exact ⟨q, List.mem_cons_of_mem _ hq, hq2⟩
    · rw [if_neg hrest2]
      by_cases hpm : p.1.toNat = r ∧ p.2.toNat = c ∧ p.1 < 40 ∧ p.2 < 10
      · rw [if_pos hpm, if_pos ⟨p, List.mem_cons_self _ _, hpm⟩]
      · rw [if_neg hpm, if_neg]
        intro hcon
        obtain ⟨q, hq, hq2⟩ := hcon
        rcases List.mem_cons.1 hq with rfl | hq3
        · exact hpm hq2
        · exact hrest2 ⟨q, hq3, hq2⟩

theorem board_ext (b1 b2 : Board) (h1 : boardOK b1) (h2 : boardOK b2)
    (h : ∀ r < 40, ∀ c < 10, cellAt b1 r c = cellAt b2 r c) : b1 = b2 := by
  apply List.ext_getElem
  · rw [h1.1, h2.1]
  · intro r hr1 hr2
    apply List.ext_getElem
    · have m1 : b1[r] ∈ b1 := List.getElem_mem _
      have m2 : b2[r] ∈ b2 := List.getElem_mem _
      rw [h1.2 _ m1, h2.2 _ m2]
    · intro c hc1 hc2
      have hr40 : r < 40 := by
        have := h1.1
        omega
      have hc10 : c < 10 := by
        have m1 : b1[r] ∈ b1 := List.getElem_mem _
        have := h1.2 _ m1
        omega
      have := h r hr40 c hc10
      unfold cellAt at this
      rw [List.getD_eq_getElem b1 [] (by omega),
          List.getD_eq_getElem b2 [] (by omega)] at this
      rw [List.getD_eq_getElem _ "" (by omega),
          List.getD_eq_getElem _ "" (by omega)] at this
      exact this

/-! ### Rejected moves and rotations leave the state unchanged -/

theorem moveLeft_notmoved (s : GameState) (h : (moveLeft s).2 = "not moved") :
    (moveLeft s).1 = s := by
  unfold moveLeft at h ⊢
  dsimp only at h ⊢
  cases hg : get_filled (getPiece s 0)
      (s.piece_position.1, s.piece_position.2 - 1) s.piece_orientation with
  | none => rfl
  | some tiled =>
    rw [hg] at h
    dsimp only at h ⊢
    split_ifs at h ⊢ with hc
    · simp at h
    · rfl

theorem moveRight_notmoved (s : GameState)
    (h : (moveRight s).2 = "not moved") : (moveRight s).1 = s := by
  unfold moveRight at h ⊢
  dsimp only at h ⊢
  cases hg : get_filled (getPiece s 0)
      (s.piece_position.1, s.piece_position.2 + 1) s.piece_orientation with
  | none => rfl
  | some tiled =>
    rw [hg] at h
    dsimp only at h ⊢
    split_ifs at h ⊢ with hc
    · simp at h
    · rfl

theorem moveDown_notmoved (s : GameState)
    (h : (moveDown s).2 = "not moved") : (moveDown s).1 = s := by
  unfold moveDown at h ⊢
  dsimp only at h ⊢
  cases hg : get_filled (getPiece s 0)
      (s.piece_position.1 - 1, s.piece_position.2) s.piece_orientation with
  | none => rfl
  | some tiled =>
    rw [hg] at h
    dsimp only at h ⊢
    split_ifs at h ⊢ with hc
    · simp at h
    · rfl

theorem tryRotate_of_no_fit (s : GameState) (piece : String)
    (current : List (Int × Int)) (newO : Nat) (cands : List (Int × Int))
    (h : ∀ pos ∈ cands, kickFits s piece current newO pos = false) :
    tryRotate s piece current newO cands = s := by
  induction cands with
  | nil => rfl
  | cons pos rest ih =>
    unfold tryRotate
    rw [h pos (List.mem_cons_self _ _)]
    exact ih (fun q hq => h q (List.mem_cons_of_mem _ hq))

theorem rotateCw_of_no_fit (s : GameState) (h : rotCwFits s = false) :
    rotateCw s = s := by
  unfold rotCwFits at h
  dsimp only at h
  rw [List.any_eq_false] at h
  unfold rotateCw
  dsimp only
  exact tryRotate_of_no_fit _ _ _ _ _ (fun q hq => by
    have := h q hq
    simpa using this)

theorem rotateCcw_of_no_fit (s : GameState) (h : rotCcwFits s = false) :
    rotateCcw s = s := by
  unfold rotCcwFits at h
  dsimp only at h
  rw [List.any_eq_false] at h
  unfold rotateCcw
  dsimp only
  exact tryRotate_of_no_fit _ _ _ _ _ (fun q hq => by
    have := h q hq
    simpa using this)


/-- C7 (amended): from any state whose active piece has a valid footprint
that is actually drawn on the board, if move_left succeeds ("moved"), then
move_left followed by move_right restores the original anchor, orientation,
and every board cell. (The claim as frozen fails when move_left is blocked
by the stack: move_right then shifts the piece right; see the
counterexample.) -/
theorem claim_C7_roundtrip (s : GameState) (cur : List (Int × Int))
    (hOK : boardOK s.board)
    (hcur : get_filled (getPiece s 0) s.piece_position s.piece_orientation =
      some cur)
    (hdrawn : ∀ p ∈ cur, boardGet s.board p = getPiece s 0)
    (hne : getPiece s 0 ≠ "")
    (hmoved : (moveLeft s).2 = "moved") :
    ((moveRight (moveLeft s).1).1).piece_position = s.piece_position ∧
    ((moveRight (moveLeft s).1).1).piece_orientation = s.piece_orientation ∧
    ((moveRight (moveLeft s).1).1).board = s.board := by
  -- extract the successful left move
  unfold moveLeft at hmoved
  dsimp only at hmoved
  cases hg : get_filled (getPiece s 0)
      (s.piece_position.1, s.piece_position.2 - 1) s.piece_orientation with
  | none =>
    rw [hg] at hmoved
    dsimp only at hmoved
    simp at hmoved
  | some cellsL =>
    rw [hg] at hmoved
    dsimp only at hmoved
    by_cases hfree : cellsFree s
        ((get_filled (getPiece s 0) s.piece_position
          s.piece_orientation).getD []) cellsL = true
    case neg =>
      rw [if_neg hfree] at hmoved
      simp at hmoved
    case pos =>
    have hML : moveLeft s =
        ({ changeBoard s (s.piece_position.1, s.piece_position.2 - 1)
            s.piece_orientation with
            piece_position := (s.piece_position.1, s.piece_position.2 - 1),
            previous_action := "move" }, "moved") := by
      unfold moveLeft
      dsimp only
      rw [hg]
      dsimp only
      rw [if_pos hfree]
    have hbL := get_filled_bounds _ _ _ _ hg
    have hbC := get_filled_bounds _ _ _ _ hcur
    have hnnL : ∀ q ∈ cellsL, 0 ≤ q.1 ∧ 0 ≤ q.2 :=
      fun q hq => ⟨(hbL.2 q hq).1, (hbL.2 q hq).2.1⟩
    have hnnC : ∀ q ∈ cur, 0 ≤ q.1 ∧ 0 ≤ q.2 :=
      fun q hq => ⟨(hbC.2 q hq).1, (hbC.2 q hq).2.1⟩
    have hinC : ∀ p ∈ cur, p.1 < 40 ∧ p.2 < 10 := by
      intro p hp
      refine boardGet_ne_empty_inrange s.board hOK p (hnnC p hp).1
        (hnnC p hp).2 ?_
      rw [hdrawn p hp]
      exact hne
    have hfreeL : ∀ p ∈ cellsL, boardGet s.board p = "" ∨ p ∈ cur := by
      rw [hcur] at hfree
      unfold cellsFree at hfree
      rw [List.all_eq_true] at hfree
      intro p hp
      have hx := hfree p hp
      rw [Bool.or_eq_true] at hx
      rcases hx with h1 | h1
      · left
        simpa using h1
      · right
        simpa using h1
    rw [hML]
    dsimp only
    set s1 : GameState :=
      { changeBoard s (s.piece_position.1, s.piece_position.2 - 1)
          s.piece_orientation with
          piece_position := (s.piece_position.1, s.piece_position.2 - 1),
          previous_action := "move" } with hs1def
    have hs1board : s1.board =
        setCells (setCells s.board cur "") cellsL (getPiece s 0) := by
      rw [hs1def]
      unfold changeBoard
      dsimp only
      rw [hcur, hg]
      rfl
    have hs1or : s1.piece_orientation = s.piece_orientation := rfl
    have hs1piece : getPiece s1 0 = getPiece s 0 := rfl
    have hOK1 : boardOK s1.board := by
      rw [hs1board]
      exact boardOK_setCells _ _ _ (boardOK_setCells _ _ _ hOK)
    have hpos_eq : (s1.piece_position.1, s1.piece_position.2 + 1) =
        s.piece_position := by
      show (s.piece_position.1, s.piece_position.2 - 1 + 1) = s.piece_position
      rw [show s.piece_position.2 - 1 + 1 = s.piece_position.2 by omega]
    have hg1 : get_filled (getPiece s1 0)
        (s1.piece_position.1, s1.piece_position.2 + 1) s1.piece_orientation =
        some cur := by
      rw [hs1piece, hpos_eq, hs1or]
      exact hcur
    have hcur1 : get_filled (getPiece s1 0) s1.piece_position
        s1.piece_orientation = some cellsL := by
      rw [hs1piece, hs1or]
      exact hg
    have hfreeR : cellsFree s1
        ((get_filled (getPiece s1 0) s1.piece_position
          s1.piece_orientation).getD []) cur = true := by
      rw [hcur1]
      unfold cellsFree
      rw [List.all_eq_true]
      intro p hp
      rw [Bool.or_eq_true]
      by_cases hmem : p ∈ cellsL
      · right
        simpa using hmem
      · left
        rw [beq_iff_eq]
        have hb := hinC p hp
        have hnn := hnnC p hp
        rw [show p = (p.1, p.2) from rfl,
          boardGet_eq_cellAt s1.board p.1 p.2 hnn.1 hnn.2, hs1board]
        rw [cellAt_setCells _ (boardOK_setCells _ _ _ hOK) cellsL _ hnnL _ _
          (by omega) (by omega)]
        rw [if_neg ?nomatchq]
        case nomatchq =>
          intro hcon
          obtain ⟨q, hq, hq1, hq2, hq3, hq4⟩ := hcon
          have hqnn := hnnL q hq
          have heqq : q = p := by
            have e1 : q.1 = p.1 := by omega
            have e2 : q.2 = p.2 := by omega
            exact Prod.ext e1 e2
          exact hmem (heqq ▸ hq)
        rw [cellAt_setCells _ hOK cur "" hnnC _ _ (by omega) (by omega)]
        rw [if_pos ⟨p, hp, rfl, rfl, by omega, by omega⟩]
    have hMR : moveRight s1 =
        ({ changeBoard s1 (s1.piece_position.1, s1.piece_position.2 + 1)
            s1.piece_orientation with
            piece_position := (s1.piece_position.1, s1.piece_position.2 + 1),
            previous_action := "move" }, "moved") := by
      unfold moveRight
      dsimp only
      rw [hg1]
      dsimp only
      rw [if_pos hfreeR]
    rw [hMR]
    dsimp only
    refine ⟨hpos_eq, rfl, ?_⟩
    have hs2board :
        (changeBoard s1 (s1.piece_position.1, s1.piece_position.2 + 1)
          s1.piece_orientation).board =
        setCells (setCells s1.board cellsL "") cur (getPiece s 0) := by
      unfold changeBoard
      dsimp only
      rw [hcur1, hg1, hs1piece]
      rfl
    show (changeBoard s1 (s1.piece_position.1, s1.piece_position.2 + 1)
        s1.piece_orientation).board = s.board
    rw [hs2board, hs1board]
    apply board_ext _ _ ?ok2 hOK
    case ok2 =>
      exact boardOK_setCells _ _ _ (boardOK_setCells _ _ _
        (boardOK_setCells _ _ _ (boardOK_setCells _ _ _ hOK)))
    intro r hr c hc
    have hOKB0 : boardOK (setCells s.board cur "") :=
      boardOK_setCells _ _ _ hOK
    have hOKB1 : boardOK (setCells (setCells s.board cur "") cellsL
        (getPiece s 0)) := boardOK_setCells _ _ _ hOKB0
    have hOKB2 : boardOK (setCells (setCells (setCells s.board cur "")
        cellsL (getPiece s 0)) cellsL "") := boardOK_setCells _ _ _ hOKB1
    rw [cellAt_setCells _ hOKB2 cur _ hnnC _ _ hr hc]
    by_cases hMc : ∃ q ∈ cur, q.1.toNat = r ∧ q.2.toNat = c ∧
        q.1 < 40 ∧ q.2 < 10
    · rw [if_pos hMc]
      obtain ⟨q, hq, hq1, hq2, hq3, hq4⟩ := hMc
      have hqnn := hnnC q hq
      have := hdrawn q hq
      rw [show q = (q.1, q.2) from rfl,
        boardGet_eq_cellAt s.board q.1 q.2 hqnn.1 hqnn.2] at this
      rw [← hq1, ← hq2]
      exact this.symm
    · rw [if_neg hMc]
      rw [cellAt_setCells _ hOKB1 cellsL _ hnnL _ _ hr hc]
      by_cases hMl : ∃ q ∈ cellsL, q.1.toNat = r ∧ q.2.toNat = c ∧
          q.1 < 40 ∧ q.2 < 10
      · rw [if_pos hMl]
        obtain ⟨q, hq, hq1, hq2, hq3, hq4⟩ := hMl
        have hqnn := hnnL q hq
        rcases hfreeL q hq with hemp | hqcur
        · rw [show q = (q.1, q.2) from rfl,
            boardGet_eq_cellAt s.board q.1 q.2 hqnn.1 hqnn.2] at hemp
          rw [← hq1, ← hq2]
          exact hemp.symm
        · exact absurd ⟨q, hqcur, hq1, hq2, hq3, hq4⟩ hMc
      · rw [if_neg hMl]
        rw [cellAt_setCells _ hOKB0 cellsL _ hnnL _ _ hr hc, if_neg hMl]
        rw [cellAt_setCells _ hOK cur _ hnnC _ _ hr hc, if_neg hMc]

/-! ### The beam-pruning selection of generate_subtrees -/


theorem foldlMinSpec (xs : List Int) (x : Int) :
    xs.foldl min x ∈ x :: xs ∧ xs.foldl min x ≤ x ∧
      ∀ b ∈ xs, xs.foldl min x ≤ b := by
  induction xs generalizing x with
  | nil => simp
  | cons y ys ih =>
    rcases ih (min x y) with ⟨hmem, hlex, hle⟩
    refine ⟨?_, ?_, ?_⟩
    · simp only [List.foldl_cons]
      rcases List.mem_cons.1 hmem with he | he
      · rcases min_choice x y with hc | hc <;> rw [he, hc]
        · exact List.mem_cons_self _ _
        · simp
      · simp [he]
    · simp only [List.foldl_cons]
      exact le_trans hlex (min_le_left _ _)
    · intro b hb
      simp only [List.foldl_cons]
      rcases List.mem_cons.1 hb with rfl | hbs
      · exact le_trans hlex (min_le_right _ _)
      · exact hle b hbs

theorem minSpec (l : List Int) (a : Int) (h : l.min? = some a) :
    a ∈ l ∧ ∀ b ∈ l, a ≤ b := by
  cases l with
  | nil => simp [List.min?] at h
  | cons x xs =>
    simp only [List.min?_cons'] at h
    injection h with h
    subst h
    rcases foldlMinSpec xs x with ⟨hmem, hlex, hle⟩
    refine ⟨hmem, ?_⟩
    intro b hb
    rcases List.mem_cons.1 hb with rfl | hbs
    · exact hlex
    · exact hle b hbs

theorem eraseIdx_map (f : Nat → Int) (l : List Nat) (i : Nat) :
    (l.map f).eraseIdx i = (l.eraseIdx i).map f := by
  induction l generalizing i with
  | nil => simp
  | cons x xs ih =>
    cases i with
    | zero => simp [List.eraseIdx]
    | succ j => simp [List.eraseIdx, ih]

theorem mem_eraseIdx_or_getElem (l : List Nat) (i : Nat) (h : i < l.length)
    (a : Nat) (hmem : a ∈ l) (hno : a ∉ l.eraseIdx i) : a = l[i] := by
  rw [List.eraseIdx_eq_take_drop_succ] at hno
  conv at hmem => rw [← List.take_append_drop i l, List.drop_eq_getElem_cons h]
  rcases List.mem_append.1 hmem with h1 | h1
  · exact absurd (List.mem_append.2 (Or.inl h1)) hno
  · rcases List.mem_cons.1 h1 with rfl | h2
    · rfl
    · exact absurd (List.mem_append.2 (Or.inr h2)) hno

theorem pruneStep_invariant (scores : List Int) (n : Nat) (k : Nat)
    (st : List Nat × List Int)
    (hlen : st.1.length = n)
    (hmap : st.2 = st.1.map (fun i => scores.getD i 0))
    (hbound : ∀ i ∈ st.1, i < k)
    (hnodup : st.1.Nodup)
    (hdom : ∀ j, j < k → j ∉ st.1 → ∀ i ∈ st.1,
      scores.getD j 0 ≤ scores.getD i 0) :
    (pruneStep scores st k).1.length = n ∧
    (pruneStep scores st k).2 =
      (pruneStep scores st k).1.map (fun i => scores.getD i 0) ∧
    (∀ i ∈ (pruneStep scores st k).1, i < k + 1) ∧
    (pruneStep scores st k).1.Nodup ∧
    (∀ j, j < k + 1 → j ∉ (pruneStep scores st k).1 →
      ∀ i ∈ (pruneStep scores st k).1,
        scores.getD j 0 ≤ scores.getD i 0) := by
  unfold pruneStep
  cases hmin : st.2.min? with
  | none =>
    dsimp only
    have h2 : st.2 = [] := List.min?_eq_none_iff.1 hmin
    have h1 : st.1 = [] := by
      rw [h2] at hmap
      exact (List.map_eq_nil_iff.1 hmap.symm)
    refine ⟨hlen, hmap, ?_, hnodup, ?_⟩
    · intro i hi
      rw [h1] at hi
      exact absurd hi (List.not_mem_nil i)
    · intro j hj hjn i hi
      rw [h1] at hi
      exact absurd hi (List.not_mem_nil i)
  | some m =>
    have hspec := minSpec st.2 m hmin
    dsimp only
    by_cases hgt : scores.getD k 0 > m
    case neg =>
      rw [if_neg hgt]
      refine ⟨hlen, hmap, fun i hi => Nat.lt_succ_of_lt (hbound i hi),
        hnodup, ?_⟩
      intro j hj hjn i hi
      rcases Nat.lt_succ_iff_lt_or_eq.1 hj with hlt | rfl
      · exact hdom j hlt hjn i hi
      · have hile : m ≤ scores.getD i 0 := by
          apply hspec.2
          rw [hmap]
          exact List.mem_map_of_mem _ hi
        omega
    case pos =>
      rw [if_pos hgt]
      dsimp only
      have hmmem : m ∈ st.2 := hspec.1
      set i0 := st.2.indexOf m with hi0def
      have hi0lt : i0 < st.2.length :=
        List.indexOf_lt_length.2 hmmem
      have hlen2 : st.2.length = st.1.length := by
        rw [hmap, List.length_map]
      have hi0lt1 : i0 < st.1.length := by omega
      have hval : st.2[i0] = m := List.getElem_indexOf hi0lt
      have hfe : scores.getD (st.1[i0]) 0 = m := by
        have hq : st.2[i0]? = some m := by
          rw [List.getElem?_eq_getElem hi0lt, hval]
        rw [hmap, List.getElem?_map,
          List.getElem?_eq_getElem hi0lt1] at hq
        simpa using hq
      have heraseNodup : (st.1.eraseIdx i0).Nodup :=
        hnodup.sublist (List.eraseIdx_sublist _ _)
      have hknotin : k ∉ st.1 := fun hk => lt_irrefl k (hbound k hk)
      have hknotin2 : k ∉ st.1.eraseIdx i0 := fun hk =>
        hknotin ((List.eraseIdx_sublist _ _).mem hk)
      have hmemerase : ∀ i ∈ st.1.eraseIdx i0, i ∈ st.1 :=
        fun i hi => (List.eraseIdx_sublist _ _).mem hi
      refine ⟨?_, ?_, ?_, ?_, ?_⟩
      · rw [List.length_append, List.length_eraseIdx]
        rw [if_pos hi0lt1, hlen]
        simp
        omega
      · rw [List.map_append, ← eraseIdx_map, ← hmap]
        simp
      · intro i hi
        rcases List.mem_append.1 hi with h1 | h1
        · exact Nat.lt_succ_of_lt (hbound i (hmemerase i h1))
        · rw [List.mem_singleton.1 h1]
          omega
      · rw [List.nodup_append]
        refine ⟨heraseNodup, List.nodup_singleton k, ?_⟩
        intro a ha hb
        rw [List.mem_singleton.1 hb] at ha
        exact hknotin2 ha
      · intro j hj hjn i hi
        have hile : ∀ q ∈ st.1, m ≤ scores.getD q 0 := by
          intro q hq
          apply hspec.2
          rw [hmap]
          exact List.mem_map_of_mem _ hq
        have hie : i ∈ st.1.eraseIdx i0 ∨ i = k := by
          rcases List.mem_append.1 hi with h1 | h1
          · exact Or.inl h1
          · exact Or.inr (List.mem_singleton.1 h1)
        have hjk : j ≠ k := by
          intro he
          apply hjn
          rw [he]
          exact List.mem_append.2 (Or.inr (List.mem_singleton.2 rfl))
        have hjlt : j < k := by omega
        by_cases hjin : j ∈ st.1
        · have hje : j = st.1[i0] := by
            apply mem_eraseIdx_or_getElem st.1 _ hi0lt1 j hjin
            intro hc
            exact hjn (List.mem_append.2 (Or.inl hc))
          have hjm : scores.getD j 0 = m := by
            rw [hje]
            exact hfe
          rcases hie with h1 | rfl
          · rw [hjm]
            exact hile i (hmemerase i h1)
          · rw [hjm]
            omega
        · have hold : ∀ q ∈ st.1, scores.getD j 0 ≤ scores.getD q 0 :=
            hdom j hjlt hjin
          rcases hie with h1 | rfl
          · exact hold i (hmemerase i h1)
          · have h1 : scores.getD j 0 ≤ m := by
              have h2 := hold _ (List.getElem_mem hi0lt1)
              rw [hfe] at h2
              exact h2
            omega

theorem pruneFold_invariant (scores : List Int) (n : Nat) :
    ∀ (cnt start : Nat) (st : List Nat × List Int),
    st.1.length = n →
    st.2 = st.1.map (fun i => scores.getD i 0) →
    (∀ i ∈ st.1, i < start) →
    st.1.Nodup →
    (∀ j, j < start → j ∉ st.1 → ∀ i ∈ st.1,
      scores.getD j 0 ≤ scores.getD i 0) →
    (((List.range' start cnt).foldl (pruneStep scores) st).1.length = n ∧
     (∀ i ∈ ((List.range' start cnt).foldl (pruneStep scores) st).1,
        i < start + cnt) ∧
     ((List.range' start cnt).foldl (pruneStep scores) st).1.Nodup ∧
     (∀ j, j < start + cnt →
        j ∉ ((List.range' start cnt).foldl (pruneStep scores) st).1 →
        ∀ i ∈ ((List.range' start cnt).foldl (pruneStep scores) st).1,
          scores.getD j 0 ≤ scores.getD i 0)) := by
  intro cnt
  induction cnt with
  | zero =>
    intro start st h1 h2 h3 h4 h5
    exact ⟨h1, fun i hi => by have := h3 i hi; omega, h4,
      fun j hj => h5 j (by omega)⟩
  | succ c ih =>
    intro start st h1 h2 h3 h4 h5
    rw [List.range'_succ, List.foldl_cons]
    have step := pruneStep_invariant scores n start st h1 h2 h3 h4 h5
    have hrec := ih (start + 1) (pruneStep scores st start) step.1 step.2.1
      step.2.2.1 step.2.2.2.1 step.2.2.2.2
    have harith : start + 1 + c = start + (c + 1) := by omega
    rw [harith] at hrec
    exact hrec

/-- C9 (amended): the pruning step of generate_subtrees keeps exactly
min(best_n, number of children) distinct child indices, and the raw score of
every retained child is at least the raw score of every discarded child (so
the retained score multiset is a best-n selection). The tie-break of the
frozen claim does not hold: see the counterexample, where the
earlier-enumerated of two tied children is the one dropped. -/
theorem claim_C9_prune (scores : List Int) (bestN : Nat) :
    (pruneSubtrees scores bestN).length = min bestN scores.length ∧
    (pruneSubtrees scores bestN).Nodup ∧
    (∀ i ∈ pruneSubtrees scores bestN, i < scores.length) ∧
    (∀ j, j < scores.length → j ∉ pruneSubtrees scores bestN →
      ∀ i ∈ pruneSubtrees scores bestN,
        scores.getD j 0 ≤ scores.getD i 0) := by
  have hn : min bestN scores.length ≤ scores.length := min_le_right _ _
  have hbase_map : scores.take (min bestN scores.length) =
      (List.range (min bestN scores.length)).map
        (fun i => scores.getD i 0) := by
    apply List.ext_getElem
    · simp
    · intro i h1 h2
      simp only [List.getElem_map, List.getElem_range, List.getElem_take]
      rw [List.getD_eq_getElem _ _ (by simp at h1; omega)]
  have hfold := pruneFold_invariant scores (min bestN scores.length)
    (scores.length - min bestN scores.length) (min bestN scores.length)
    (List.range (min bestN scores.length),
      scores.take (min bestN scores.length))
    (by simp) hbase_map (fun i hi => List.mem_range.1 hi)
    (List.nodup_range _)
    (fun j hj hjn => absurd (List.mem_range.2 hj) hjn)
  have hps : pruneSubtrees scores bestN =
      ((List.range' (min bestN scores.length)
        (scores.length - min bestN scores.length)).foldl
        (pruneStep scores)
        (List.range (min bestN scores.length),
          scores.take (min bestN scores.length))).1 := rfl
  rw [hps]
  have harith : min bestN scores.length +
      (scores.length - min bestN scores.length) = scores.length := by omega
  rw [harith] at hfold
  exact ⟨hfold.1, hfold.2.2.1, hfold.2.1, hfold.2.2.2⟩

/-! ### Claim theorems, counterexamples, and witnesses -/

set_option maxRecDepth 10000

/-- C1 (code evaluation at the failing input): locking the vertical i piece
that clears four rows (raw attack 4) while 5 lines of garbage are pending
does not keep a reduced pending entry of 1 as the spec describes; the
cancelling loop repeatedly subtracts the attack from the oldest entry until
it can pop it, so the pending queue is emptied and a remainder of 3 is
still appended to sent_garbage. -/
theorem claim_C1_behavior :
    sQuad.pending_garbage = [5] ∧
    (lockPiece sQuad).2.1 = 4 ∧
    (lockPiece sQuad).1.pending_garbage = [] ∧
    (lockPiece sQuad).1.sent_garbage = [3] ∧
    cancelGarbage 4 [5] = (3, []) ∧
    cancelGarbage 2 [5] = (1, []) := by
  decide

/-- C2 (amended): a lock that clears no line resets the combo to -1 and
drains the ENTIRE pending-garbage queue in that one call (not one entry per
call); afterwards pending_garbage is empty, sent_garbage is untouched, and
the lock returns (0, [], -1). -/
theorem claim_C2_drain (s : GameState) (h : checkTiled s = []) :
    (lockPiece s).1.pending_garbage = [] ∧
    (lockPiece s).1.current_combo = -1 ∧
    (lockPiece s).1.sent_garbage = s.sent_garbage ∧
    (lockPiece s).2 = (0, [], -1) := by
  have hh : checkTiled { s with hold := false } = [] := h
  rw [lockPiece_of_noclear s hh]
  refine ⟨?_, ?_, ?_, rfl⟩
  · rw [(nextPiece_fields _).1]
    exact (drainPending_fields _).1
  · rw [(nextPiece_fields _).2.1]
    exact (drainPending_fields _).2.1
  · rw [(nextPiece_fields _).2.2.1]
    exact (drainPending_fields _).2.2.1

/-- C2 (counterexample to the claim as frozen): a no-clear lock with two
pending entries [1, 1] leaves the pending queue empty, not [1] as "drains
exactly one pending-garbage entry" would require. -/
theorem claim_C2_counterexample :
    sPend.pending_garbage = [1, 1] ∧
    checkTiled sPend = [] ∧
    (lockPiece sPend).1.pending_garbage = [] ∧
    (lockPiece sPend).1.pending_garbage ≠ [1] := by
  decide

/-- C2 witness: the amended drain theorem evaluated at the concrete
no-clear state. -/
theorem claim_C2_witness :
    checkTiled sPend = [] ∧
    (lockPiece sPend).1.pending_garbage = [] ∧
    (lockPiece sPend).1.current_combo = -1 :=
  ⟨by decide, (claim_C2_drain sPend (by decide)).1,
   (claim_C2_drain sPend (by decide)).2.1⟩

/-- C3 (amended): next_piece advances the cursor, resets the anchor to
(19, 4) with orientation 0, and (when the game is not already over) raises
game_over exactly when a spawn cell is occupied; the spawn cells are written
to the board UNCONDITIONALLY, also on spawn-collision. -/
theorem claim_C3_spawn (s : GameState) :
    (nextPiece s).queue_position = s.queue_position + 1 ∧
    (nextPiece s).piece_position = (19, 4) ∧
    (nextPiece s).piece_orientation = 0 ∧
    (s.game_over = false →
      ((nextPiece s).game_over = true ↔
        (spawnCells s).any (fun p => boardGet s.board p != "") = true)) ∧
    (nextPiece s).board = setCells s.board (spawnCells s) (spawnPiece s) := by
  refine ⟨(nextPiece_fields s).2.2.2.2.1, (nextPiece_fields s).2.2.2.2.2.1,
    (nextPiece_fields s).2.2.2.2.2.2, ?_, ?_⟩
  · intro hgo
    unfold nextPiece
    dsimp only
    split
    · rename_i hc
      exact ⟨fun _ => hc, fun _ => rfl⟩
    · rename_i hc
      constructor
      · intro hgo2
        rw [hgo] at hgo2
        exact absurd hgo2 (by decide)
      · intro hc2
        exact absurd hc2 hc
  · unfold nextPiece
    dsimp only
    split <;> rfl

/-- C3 (counterexample to the claim as frozen): with cell (19, 4) already
occupied, the spawn raises game_over but STILL writes the o piece onto the
board, contradicting "on spawn-collision the board is not written". -/
theorem claim_C3_counterexample :
    sCol.game_over = false ∧
    boardGet sCol.board (19, 4) = "g" ∧
    (nextPiece sCol).game_over = true ∧
    boardGet (nextPiece sCol).board (19, 4) = "o" ∧
    (nextPiece sCol).board ≠ sCol.board := by
  decide

/-- C3 witness: the amended spawn theorem evaluated at the concrete
colliding state. -/
theorem claim_C3_witness :
    sCol.game_over = false ∧
    ((nextPiece sCol).game_over = true ↔
      (spawnCells sCol).any (fun p => boardGet sCol.board p != "") = true) :=
  ⟨by decide, (claim_C3_spawn sCol).2.2.2.1 (by decide)⟩

/-- C4 (amended): for the 7 piece letters, any orientation 0-3, and any
anchor, get_filled returns none or exactly 4 cells whose columns are within
0-9 and whose rows are nonnegative; rows have NO upper bound (see the
counterexample at anchor row 39). -/
theorem claim_C4_geometry :
    ∀ piece ∈ (["i", "o", "t", "j", "l", "s", "z"] : List String),
    ∀ o : Nat, o ≤ 3 → ∀ pos : Int × Int,
    get_filled piece pos o = none ∨
    ∃ cells, get_filled piece pos o = some cells ∧ cells.length = 4 ∧
      ∀ c ∈ cells, 0 ≤ c.1 ∧ 0 ≤ c.2 ∧ c.2 ≤ 9 := by
  intro piece _ o _ pos
  cases h : get_filled piece pos o with
  | none => exact Or.inl rfl
  | some cells =>
    exact Or.inr ⟨cells, rfl, get_filled_bounds piece pos o cells h⟩

/-- C4 (counterexample to the claim as frozen): the t piece at anchor
(39, 4), orientation 0, is accepted by get_filled yet contains the cell
(40, 4), whose row lies outside the 40-row board. -/
theorem claim_C4_counterexample :
    get_filled "t" (39, 4) 0 = some [(39, 3), (39, 4), (39, 5), (40, 4)] ∧
    ((get_filled "t" (39, 4) 0).getD []).any (fun c => c.1 > 39) = true := by
  decide

/-- C4 witness: the amended geometry theorem evaluated at the t piece at the
spawn anchor. -/
theorem claim_C4_witness :
    ("t" : String) ∈ (["i", "o", "t", "j", "l", "s", "z"] : List String) ∧
    (0 : Nat) ≤ 3 ∧
    (get_filled "t" ((19 : Int), (4 : Int)) 0 = none ∨
      ∃ cells, get_filled "t" ((19 : Int), (4 : Int)) 0 = some cells ∧
        cells.length = 4 ∧ ∀ c ∈ cells, 0 ≤ c.1 ∧ 0 ≤ c.2 ∧ c.2 ≤ 9) :=
  ⟨by decide, by decide,
   claim_C4_geometry "t" (by decide) 0 (by decide) ((19 : Int), (4 : Int))⟩

/-- C5 (code evaluation at the failing input): find_well never updates its
deepest variable, so on [5,4,0,4,4,4,4,4,4,4] it returns (9, 5) - the LAST
index whose height is at most surface[0], paired with surface[0] - rather
than the minimum-height column (2, 0). -/
theorem claim_C5_behavior :
    find_well [5, 4, 0, 4, 4, 4, 4, 4, 4, 4] = (9, 5) ∧
    find_well [5, 4, 0, 4, 4, 4, 4, 4, 4, 4] ≠ (2, 0) ∧
    [(5 : Int), 4, 0, 4, 4, 4, 4, 4, 4, 4].getD 9 0 = 4 ∧
    [(5 : Int), 4, 0, 4, 4, 4, 4, 4, 4, 4].getD 2 0 = 0 := by
  decide

/-- C6: a translate that reports "not moved" leaves the full engine state
unchanged, and a rotation none of whose kick candidates fits leaves the
full engine state unchanged (no exception is possible: every operation is a
total function). -/
theorem claim_C6_rejected (s : GameState) :
    ((moveLeft s).2 = "not moved" → (moveLeft s).1 = s) ∧
    ((moveRight s).2 = "not moved" → (moveRight s).1 = s) ∧
    ((moveDown s).2 = "not moved" → (moveDown s).1 = s) ∧
    (rotCwFits s = false → rotateCw s = s) ∧
    (rotCcwFits s = false → rotateCcw s = s) :=
  ⟨moveLeft_notmoved s, moveRight_notmoved s, moveDown_notmoved s,
   rotateCw_of_no_fit s, rotateCcw_of_no_fit s⟩

/-- C6 witness: at the wedged o-piece state every move fails and no rotation
candidate exists, and each rejected action leaves the state unchanged. -/
theorem claim_C6_witness :
    (moveLeft sBlocked).2 = "not moved" ∧
    (moveLeft sBlocked).1 = sBlocked ∧
    (moveRight sBlocked).2 = "not moved" ∧
    (moveRight sBlocked).1 = sBlocked ∧
    (moveDown sBlocked).2 = "not moved" ∧
    (moveDown sBlocked).1 = sBlocked ∧
    rotCwFits sBlocked = false ∧
    rotateCw sBlocked = sBlocked ∧
    rotCcwFits sBlocked = false ∧
    rotateCcw sBlocked = sBlocked :=
  ⟨by decide, (claim_C6_rejected sBlocked).1 (by decide),
   by decide, (claim_C6_rejected sBlocked).2.1 (by decide),
   by decide, (claim_C6_rejected sBlocked).2.2.1 (by decide),
   by decide, (claim_C6_rejected sBlocked).2.2.2.1 (by decide),
   by decide, (claim_C6_rejected sBlocked).2.2.2.2 (by decide)⟩

/-- C7 (counterexample to the claim as frozen): a reachable state whose
valid, wall-free active piece (the o piece resting at anchor (0, 4), cells
in columns 4-5) is blocked on its left by the stack; move_left is a no-op
and the following move_right shifts the piece to (0, 5), so the round trip
does not return to the original anchor. -/
theorem claim_C7_counterexample :
    Reachable sRound ∧
    sRound.piece_position = (0, 4) ∧
    get_filled (getPiece sRound 0) sRound.piece_position
      sRound.piece_orientation = some [(0, 5), (1, 4), (0, 4), (1, 5)] ∧
    (∀ p ∈ [((0 : Int), (5 : Int)), (1, 4), (0, 4), (1, 5)],
      boardGet sRound.board p = "o" ∧ 1 ≤ p.2 ∧ p.2 ≤ 8) ∧
    (moveLeft sRound).2 = "not moved" ∧
    ((moveRight (moveLeft sRound).1).1).piece_position = (0, 5) := by
  refine ⟨?_, by decide, by decide, by decide, by decide, by decide⟩
  exact Reachable.softDrop _ (Reachable.hardDrop _ (Reachable.moveLeft _
    (Reachable.moveLeft _ (Reachable.hardDrop _ (Reachable.moveLeft _
    (Reachable.moveLeft _ (Reachable.moveLeft _ (Reachable.moveLeft _
    (Reachable.init _ _)))))))))

/-- C7 witness: the amended round-trip theorem evaluated at the t piece
drawn at the spawn cell of an empty board, where move_left succeeds. -/
theorem claim_C7_witness :
    (moveLeft sFree).2 = "moved" ∧
    ((moveRight (moveLeft sFree).1).1).piece_position =
      sFree.piece_position ∧
    ((moveRight (moveLeft sFree).1).1).piece_orientation =
      sFree.piece_orientation ∧
    ((moveRight (moveLeft sFree).1).1).board = sFree.board :=
  ⟨by decide,
   (claim_C7_roundtrip sFree [(19, 3), (19, 4), (19, 5), (20, 4)]
     (by decide) (by decide) (by decide) (by decide) (by decide)).1,
   (claim_C7_roundtrip sFree [(19, 3), (19, 4), (19, 5), (20, 4)]
     (by decide) (by decide) (by decide) (by decide) (by decide)).2.1,
   (claim_C7_roundtrip sFree [(19, 3), (19, 4), (19, 5), (20, 4)]
     (by decide) (by decide) (by decide) (by decide) (by decide)).2.2⟩

/-- C8 (amended): a 4-line clear from back-to-back false sets the flag (and
the bonus only appears once the flag is already true: the attack with the
flag set exceeds the attack without it by exactly B2B_BONUS for every
qualifying clear that is not a lone mini-spin single); at the engine level
any 4-line lock turns the flag on. The lone mini-spin single receives no
bonus: see the counterexample. -/
theorem claim_C8_b2b :
    (∀ spin combo, (lockScore spin 4 false combo).2.1 = true) ∧
    (∀ spin n combo, (n = 4 ∨ spin = "t" ∨ spin = "mini") →
      (spin ≠ "mini" ∨ 2 ≤ n) →
      (lockScore spin n true combo).1 =
        (lockScore spin n false combo).1 + B2B_BONUS) ∧
    (∀ s : GameState, s.back_to_back = false → (checkTiled s).length = 4 →
      (lockPiece s).1.back_to_back = true) := by
  refine ⟨?_, ?_, ?_⟩
  · intro spin combo
    exact lockScore_qualifies_b2b spin 4 false combo (Or.inl rfl)
  · intro spin n combo hq hnm
    exact lockScore_b2b_bonus spin n combo hq hnm
  · intro s hb2b hlen
    have hne : ¬ checkTiled { s with hold := false } = [] := by
      intro hc
      have hc2 : checkTiled s = [] := hc
      rw [hc2] at hlen
      simp at hlen
    rw [lockPiece_b2b_of_clear s hne]
    apply lockScore_qualifies_b2b
    left
    exact hlen

/-- C8 (counterexample to the claim as frozen): with back-to-back already
true, a lock classified as a t-spin-mini single (a qualifying "spin clear")
produces raw attack 0: it does NOT include the B2B_BONUS of 1. -/
theorem claim_C8_counterexample :
    sMini.back_to_back = true ∧
    getPiece sMini 0 = "t" ∧
    checkTSpin { sMini with hold := false } = "mini" ∧
    checkTiled sMini = [1] ∧
    (lockPiece sMini).2.1 = 0 ∧
    (lockPiece sMini).1.back_to_back = true ∧
    B2B_BONUS = 1 ∧
    lockScore "mini" 1 true (-1) = lockScore "mini" 1 false (-1) := by
  decide

/-- C8 witness: the amended back-to-back theorem evaluated at a plain quad
clear and at the concrete four-line lock state. -/
theorem claim_C8_witness :
    (lockScore "no" 4 false (-1)).2.1 = true ∧
    (lockScore "no" 4 true (-1)).1 =
      (lockScore "no" 4 false (-1)).1 + B2B_BONUS ∧
    sQuad.back_to_back = false ∧
    (checkTiled sQuad).length = 4 ∧
    (lockPiece sQuad).1.back_to_back = true :=
  ⟨claim_C8_b2b.1 "no" (-1),
   claim_C8_b2b.2.1 "no" 4 (-1) (by decide) (by decide),
   by decide, by decide,
   claim_C8_b2b.2.2 sQuad (by decide) (by decide)⟩

/-- C9 (counterexample to the claim as frozen): with raw scores [3, 3, 5]
and best_n = 2 the retained children are indices 1 and 2 - the
earlier-enumerated tied child 0 is the one dropped, contradicting "ties
resolved in favor of earlier-enumerated children" (which would retain
indices 0 and 2). The claim's own example [5,1,9,3,7] with best_n = 2 does
retain the children scored 9 and 7 (indices 2 and 4). -/
theorem claim_C9_counterexample :
    pruneSubtrees [3, 3, 5] 2 = [1, 2] ∧
    (0 : Nat) ∉ pruneSubtrees [3, 3, 5] 2 ∧
    pruneSubtrees [3, 3, 5] 2 ≠ [0, 2] ∧
    pruneSubtrees [5, 1, 9, 3, 7] 2 = [2, 4] := by
  decide

/-- C9 witness: the amended pruning theorem evaluated at the claim's own
example scores. -/
theorem claim_C9_witness :
    (pruneSubtrees [5, 1, 9, 3, 7] 2).length =
      min 2 [(5 : Int), 1, 9, 3, 7].length ∧
    (1 : Nat) < [(5 : Int), 1, 9, 3, 7].length ∧
    (1 : Nat) ∉ pruneSubtrees [5, 1, 9, 3, 7] 2 ∧
    (2 : Nat) ∈ pruneSubtrees [5, 1, 9, 3, 7] 2 ∧
    [(5 : Int), 1, 9, 3, 7].getD 1 0 ≤ [(5 : Int), 1, 9, 3, 7].getD 2 0 :=
  ⟨(claim_C9_prune [5, 1, 9, 3, 7] 2).1, by decide, by decide, by decide,
   (claim_C9_prune [5, 1, 9, 3, 7] 2).2.2.2 1 (by decide) (by decide) 2
     (by decide)⟩

/-- C10: the board is 40 rows of 10 cells after construction and after every
engine operation (translations, rotations, hold, soft and hard drop, lock
with row removal and top refill, spawn, and garbage-row insertion). -/
theorem claim_C10_board_shape :
    (∀ (queue : List String) (rng : List Nat),
      boardOK (initGame queue rng).board) ∧
    (∀ s : GameState, boardOK s.board →
      boardOK ((moveLeft s).1).board ∧
      boardOK ((moveRight s).1).board ∧
      boardOK ((moveDown s).1).board ∧
      boardOK (rotateCw s).board ∧
      boardOK (rotateCcw s).board ∧
      boardOK (holdPiece s).board ∧
      boardOK (softDrop s).board ∧
      boardOK (hardDrop s).board ∧
      boardOK ((lockPiece s).1).board ∧
      boardOK (nextPiece s).board ∧
      (∀ n, boardOK (acceptPending s n).board)) := by
  refine ⟨boardOK_initGame, ?_⟩
  intro s hOK
  exact ⟨boardOK_moveLeft s hOK, boardOK_moveRight s hOK,
    boardOK_moveDown s hOK, boardOK_rotateCw s hOK, boardOK_rotateCcw s hOK,
    boardOK_holdPiece s hOK, boardOK_softDrop s hOK, boardOK_hardDrop s hOK,
    boardOK_lockPiece s hOK, boardOK_nextPiece s hOK,
    fun n => boardOK_acceptPending s n hOK⟩

/-- C10 witness: the shape invariant evaluated at a fresh game and through a
hard drop from the base state. -/
theorem claim_C10_witness :
    boardOK (initGame ["t"] []).board ∧
    boardOK baseState.board ∧
    boardOK (hardDrop baseState).board :=
  ⟨claim_C10_board_shape.1 ["t"] [], by decide,
   (claim_C10_board_shape.2 baseState (by decide)).2.2.2.2.2.2.2.1⟩

end Tetromino
